import Mathlib

/-!
Verification development for terraform-provider-instana

Shallow embedding of `instana/restapi/alerts-api.go` (alert event types, the
event filtering configuration and the alerting configuration together with
their `Validate` methods), of the generic REST resource contract exercised by
`instana/restapi/resources/rule-bindings_test.go`, and of the resource handles
of `instana/resource-alerting-config.go` and
`instana/resource-application-config.go`.

Conventions of the embedding

* A Go `string` is a Lean `String`; Go's `len(s)` is the number of bytes of the
  UTF-8 encoding, `String.utf8ByteSize`.
* A Go `error` is an `Option String`: `none` is `nil`, `some msg` is an error
  whose `Error()` text is `msg`.
* A Go slice is a `List`; a nil slice and an empty slice are both `[]`.
* A Go string is taken to be valid UTF-8, so that it is a sequence of runes
  (`Char`s). `strings.ToLower` then maps `unicode.ToLower` over the runes; its
  ASCII branch is spelled out, and the Unicode case table consulted for runes
  above `unicode.MaxASCII` is the argument `table` of the definitions.
* `utils.IsBlank` is not among the sources and is the argument `IsBlank` of the
  definitions that call it.
* A Go map is an initialised (non-nil) map. An interface value that may be nil
  is an `Option`; a function in which a type assertion can panic returns an
  `Option`, `none` being the panic.
-/

set_option autoImplicit false
set_option maxRecDepth 100000

namespace Instana

/-- Go error value: `none` is nil, `some msg` is an error with text `msg`. -/
abbrev GoError := Option String

/-- Go builtin `len` on a string: the number of bytes of its UTF-8 encoding. -/
def len (s : String) : Nat := s.utf8ByteSize

/-- Go `unicode.ToLower`: a rune up to `unicode.MaxASCII` is shifted by
`'a' - 'A'` when it lies in `'A'..'Z'` and returned unchanged otherwise; any
other rune is looked up in the Unicode case table. -/
def unicodeToLower (table : Char → Char) (r : Char) : Char :=
  if r.toNat ≤ 127 then
    if 'A'.toNat ≤ r.toNat ∧ r.toNat ≤ 'Z'.toNat then
      Char.ofNat (r.toNat + ('a'.toNat - 'A'.toNat))
    else r
  else table r

/-- Go `strings.ToLower`: `unicode.ToLower` mapped over the runes. -/
def ToLower (table : Char → Char) (s : String) : String :=
  String.mk (s.data.map (unicodeToLower table))

/-- A case table that leaves every rune above ASCII unchanged; used where a
concrete table is needed to evaluate on ASCII inputs. -/
def asciiOnlyTable : Char → Char := fun r => r

/-- Modelled from the spec: `utils.StringSliceElementsAreUnique` is not among the
sources; it answers whether no element of the slice occurs at two positions. -/
def StringSliceElementsAreUnique : List String → Bool
  | [] => true
  | x :: xs => !(xs.contains x) && StringSliceElementsAreUnique xs

/-! ## alerts-api.go -/

/-- Source `type AlertEventType string` -/
abbrev AlertEventType := String

/-- Source `AlertEventType.Equals`: case insensitive comparison of the string forms. -/
def AlertEventType.Equals (table : Char → Char) (t other : AlertEventType) : Bool :=
  ToLower table t == ToLower table other

def IncidentAlertEventType : AlertEventType := "incident"
def CriticalAlertEventType : AlertEventType := "critical"
def WarningAlertEventType : AlertEventType := "warning"
def ChangeAlertEventType : AlertEventType := "change"
def OnlineAlertEventType : AlertEventType := "online"
def OfflineAlertEventType : AlertEventType := "offline"
def NoneAlertEventType : AlertEventType := "none"
def AgentMonitoringIssueEventType : AlertEventType := "agent_monitoring_issue"

/-- Source `SupportedAlertEventTypes`: the supported alert event types of the API. -/
def SupportedAlertEventTypes : List AlertEventType :=
  [ IncidentAlertEventType,
    CriticalAlertEventType,
    WarningAlertEventType,
    ChangeAlertEventType,
    OnlineAlertEventType,
    OfflineAlertEventType,
    NoneAlertEventType,
    AgentMonitoringIssueEventType ]

/-- Source `IsSupportedAlertEventType`: the range loop over `SupportedAlertEventTypes`
returning true at the first entry that `Equals` the argument. -/
def IsSupportedAlertEventType (table : Char → Char) (t : AlertEventType) : Bool :=
  SupportedAlertEventTypes.any (fun supported => AlertEventType.Equals table supported t)

/-- Source `EventFilteringConfiguration`; `Query` is a `*string`, `none` being nil. -/
structure EventFilteringConfiguration where
  Query : Option String
  RuleIDs : List String
  EventTypes : List AlertEventType

/-- Source `eventTypeSliceToStringSlice`: element-wise conversion to `string`. -/
def eventTypeSliceToStringSlice (input : List AlertEventType) : List String :=
  let numberElements := input.length
  if numberElements == 0 then [] else input.map (fun v => (v : String))

def queryTooLongMessage : String :=
  "Query of EventFilterConfig not valid; Maximum length of Query is 2048 characters"
def eitherMessage : String :=
  "Invalid EventFilterConfig; Either RuleIDs or EventTypes must be configured"
def maxRuleIDsMessage : String :=
  "Invalid EventFilterConfig; Maximum number of RuleIDs is 1024"
def ruleIDsUniqueMessage : String :=
  "Invalid EventFilterConfig; RuleIDs must be unique"
/-- Source `fmt.Errorf("... is %d", len(SupportedAlertEventTypes))` -/
def maxEventTypesMessage : String :=
  "Invalid EventFilterConfig; Maximum number of EventTypes is " ++
    toString SupportedAlertEventTypes.length
def eventTypesUniqueMessage : String :=
  "Invalid EventFilterConfig; EventTypes must be unique"
/-- Source `fmt.Errorf("%s is not a supported EventType", t)` -/
def unsupportedMessage (t : AlertEventType) : String :=
  t ++ " is not a supported EventType"

/-- The final range loop of `EventFilteringConfiguration.Validate`. -/
def validateEventTypes (table : Char → Char) : List AlertEventType → GoError
  | [] => none
  | t :: ts =>
    if !IsSupportedAlertEventType table t then some (unsupportedMessage t)
    else validateEventTypes table ts

/-- Source `EventFilteringConfiguration.Validate` -/
def EventFilteringConfiguration.Validate (table : Char → Char)
    (c : EventFilteringConfiguration) : GoError :=
  if (match c.Query with
      | some q => decide (len q > 2048)
      | none => false) then
    some queryTooLongMessage
  else
    let numberRuleIDs := c.RuleIDs.length
    let numberEventType := c.EventTypes.length
    if (numberRuleIDs == 0 && numberEventType == 0) ||
        (decide (numberRuleIDs > 0) && decide (numberEventType > 0)) then
      some eitherMessage
    else if numberRuleIDs > 1024 then
      some maxRuleIDsMessage
    else if !StringSliceElementsAreUnique c.RuleIDs then
      some ruleIDsUniqueMessage
    else if numberEventType > SupportedAlertEventTypes.length then
      some maxEventTypesMessage
    else if !StringSliceElementsAreUnique (eventTypeSliceToStringSlice c.EventTypes) then
      some eventTypesUniqueMessage
    else
      validateEventTypes table c.EventTypes

/-- Source `AlertingConfiguration` -/
structure AlertingConfiguration where
  ID : String
  AlertName : String
  IntegrationIDs : List String
  EventFilteringConfiguration : EventFilteringConfiguration

/-- Source `AlertingConfiguration.GetID` -/
def AlertingConfiguration.GetID (c : AlertingConfiguration) : String := c.ID

def idMissingMessage : String := "ID is missing"
def alertNameMissingMessage : String := "AlertName is missing"
def alertNameTooLongMessage : String :=
  "AlertName not valid; Maximum length of AlertName is 256 characters"
def tooManyIntegrationIDsMessage : String :=
  "Too many IntegrationIDs; Maximum number of IntegrationIds is 1024"
def integrationIDsUniqueMessage : String := "IntegrationIDs must be unique"

/-- Source `AlertingConfiguration.Validate` -/
def AlertingConfiguration.Validate (table : Char → Char) (IsBlank : String → Bool)
    (c : AlertingConfiguration) : GoError :=
  if IsBlank c.ID then
    some idMissingMessage
  else if IsBlank c.AlertName then
    some alertNameMissingMessage
  else if len c.AlertName > 256 then
    some alertNameTooLongMessage
  else if c.IntegrationIDs.length > 1024 then
    some tooManyIntegrationIDsMessage
  else if !StringSliceElementsAreUnique c.IntegrationIDs then
    some integrationIDsUniqueMessage
  else
    c.EventFilteringConfiguration.Validate table

/-- The checks of `AlertingConfiguration.Validate` and of the delegated
`EventFilteringConfiguration.Validate`, one constructor per `if` (or loop) that
returns an error, in source order. -/
inductive ValidationCheck where
  | idPresent
  | alertNamePresent
  | alertNameLength
  | integrationIDsCount
  | integrationIDsUnique
  | queryLength
  | eitherRuleIDsOrEventTypes
  | ruleIDsCount
  | ruleIDsUnique
  | eventTypesCount
  | eventTypesUnique
  | eventTypesSupported
  deriving DecidableEq, Repr

/-- The first check of `EventFilteringConfiguration.Validate` that fails on `c`:
the conditions of `Validate`, in the same order, with the name of the check in
place of the error. -/
def EventFilteringConfiguration.firstFailingCheck (table : Char → Char)
    (c : EventFilteringConfiguration) : Option ValidationCheck :=
  if (match c.Query with
      | some q => decide (len q > 2048)
      | none => false) then
    some .queryLength
  else if (c.RuleIDs.length == 0 && c.EventTypes.length == 0) ||
      (decide (c.RuleIDs.length > 0) && decide (c.EventTypes.length > 0)) then
    some .eitherRuleIDsOrEventTypes
  else if c.RuleIDs.length > 1024 then
    some .ruleIDsCount
  else if !StringSliceElementsAreUnique c.RuleIDs then
    some .ruleIDsUnique
  else if c.EventTypes.length > SupportedAlertEventTypes.length then
    some .eventTypesCount
  else if !StringSliceElementsAreUnique (eventTypeSliceToStringSlice c.EventTypes) then
    some .eventTypesUnique
  else if c.EventTypes.any (fun t => !IsSupportedAlertEventType table t) then
    some .eventTypesSupported
  else
    none

/-- The first check of `AlertingConfiguration.Validate` that fails on `c`. -/
def AlertingConfiguration.firstFailingCheck (table : Char → Char) (IsBlank : String → Bool)
    (c : AlertingConfiguration) : Option ValidationCheck :=
  if IsBlank c.ID then
    some .idPresent
  else if IsBlank c.AlertName then
    some .alertNamePresent
  else if len c.AlertName > 256 then
    some .alertNameLength
  else if c.IntegrationIDs.length > 1024 then
    some .integrationIDsCount
  else if !StringSliceElementsAreUnique c.IntegrationIDs then
    some .integrationIDsUnique
  else
    c.EventFilteringConfiguration.firstFailingCheck table

/-- The error message `Validate` returns when the given check is the one that
fails; `t` is the offending event type, which only the message of the
supported-event-type check interpolates. -/
def checkMessage (k : ValidationCheck) (t : AlertEventType) : String :=
  match k with
  | .idPresent => idMissingMessage
  | .alertNamePresent => alertNameMissingMessage
  | .alertNameLength => alertNameTooLongMessage
  | .integrationIDsCount => tooManyIntegrationIDsMessage
  | .integrationIDsUnique => integrationIDsUniqueMessage
  | .queryLength => queryTooLongMessage
  | .eitherRuleIDsOrEventTypes => eitherMessage
  | .ruleIDsCount => maxRuleIDsMessage
  | .ruleIDsUnique => ruleIDsUniqueMessage
  | .eventTypesCount => maxEventTypesMessage
  | .eventTypesUnique => eventTypesUniqueMessage
  | .eventTypesSupported => unsupportedMessage t

/-- A query of 1025 runes, each of two bytes in UTF-8. -/
def accentedQuery : String := String.mk (List.replicate 1025 'é')

/-- An ASCII case variant of `name`: every character is the one of `name` at
the same position or its upper-case form (`name` being in lower case). -/
def IsCaseVariantOf (v name : String) : Prop :=
  List.Forall₂
    (fun a b => a = b ∨ ('a'.toNat ≤ b.toNat ∧ b.toNat ≤ 'z'.toNat ∧
      a.toNat + ('a'.toNat - 'A'.toNat) = b.toNat))
    v.data name.data

/-- Go `strings.Contains` on valid UTF-8 strings. -/
def Contains (s substr : String) : Prop := substr.data <:+: s.data

/-! ## Rule bindings and the generic REST resource

`rule-bindings_test.go` exercises `RuleBinding` and the resource returned by
`NewRuleBindingResource`; their implementation is not among the sources. -/

/-- Source `RuleBinding`, with the fields the tests construct. -/
structure RuleBinding where
  ID : String
  Enabled : Bool
  Triggering : Bool
  Severity : Int
  Text : String
  Description : String
  ExpirationTime : Int
  Query : String
  RuleIds : List String
  deriving DecidableEq, Repr

/-- Source `RuleBinding.GetID` -/
def RuleBinding.GetID (r : RuleBinding) : String := r.ID

/-- Modelled from the spec: `RuleBinding.Validate` is not among the sources. The
invariants are: ID, Text, Description non-blank; RuleIds non-empty; each
violation produces a message naming the offending field. -/
def RuleBinding.Validate (IsBlank : String → Bool) (r : RuleBinding) : GoError :=
  if IsBlank r.ID then
    some "ID is missing"
  else if IsBlank r.Text then
    some "Text is missing"
  else if IsBlank r.Description then
    some "Description is missing"
  else if r.RuleIds.length == 0 then
    some "RuleIds are missing"
  else
    none

/-- A JSON value; a number keeps its literal text. -/
inductive Json where
  | null
  | bool (b : Bool)
  | num (literal : String)
  | str (s : String)
  | arr (elems : List Json)
  | obj (members : List (String × Json))

/-- The error taxonomy of the REST layer. -/
inductive RestError where
  | ValidationError (msg : String)
  | DeserializationError (msg : String)
  | TransportError (msg : String)
  deriving DecidableEq, Repr

/-- A call received by the transport client. -/
inductive TransportCall (T : Type) where
  | GetOne (id : String) (path : String)
  | GetAll (path : String)
  | Put (obj : T) (path : String)
  | Delete (id : String) (path : String)
  deriving DecidableEq, Repr

/-- The transport client: `GetOne(id, path)`, `GetAll(path)`, `Put(obj, path)`
and `Delete(id, path)`, returning raw bytes or an error. -/
structure RestClient (T : Type) where
  GetOne : String → String → Except String String
  GetAll : String → Except String String
  Put : T → String → Except String String
  Delete : String → String → GoError

/-- The data-object capability the REST resource is parameterized over:
`GetID`, `Validate`, and the filling of an object from the members of a JSON
object (`json.Unmarshal` into the struct). -/
structure DataObject (T : Type) where
  GetID : T → String
  Validate : T → GoError
  FromJSON : List (String × Json) → Except String T

/-- A REST resource: its fixed sub-path, its transport client, its kind of data
object, and the JSON reader applied to payloads (`none` on malformed JSON). -/
structure RestResource (T : Type) where
  resourcePath : String
  client : RestClient T
  object : DataObject T
  parseJSON : String → Option Json

deriving instance DecidableEq for Except

/-- The result of an operation together with the transport calls it issued. -/
abbrev Outcome (T R : Type) := Except RestError R × List (TransportCall T)

/-- Modelled from the spec: deserialization of one JSON value into a data
object. Anything but a JSON object is a DeserializationError; the object read
is validated (per-object `Validate()` invocation). -/
def RestResource.unmarshalValue {T : Type} (res : RestResource T) : Json → Except RestError T
  | Json.obj members =>
    match res.object.FromJSON members with
    | .error e => .error (.DeserializationError e)
    | .ok v =>
      match res.object.Validate v with
      | some msg => .error (.ValidationError msg)
      | none => .ok v
  | _ => .error (.DeserializationError "payload is not a single JSON object")

/-- Modelled from the spec: deserialization of a payload as a single object;
malformed JSON is a DeserializationError. -/
def RestResource.unmarshalOne {T : Type} (res : RestResource T) (data : String) :
    Except RestError T :=
  match res.parseJSON data with
  | none => .error (.DeserializationError "payload is not JSON")
  | some j => res.unmarshalValue j

/-- Modelled from the spec: deserialization of the elements of a JSON array, in
order, failing at the first element that fails. -/
def RestResource.unmarshalElems {T : Type} (res : RestResource T) :
    List Json → Except RestError (List T)
  | [] => .ok []
  | j :: js =>
    match res.unmarshalValue j with
    | .error e => .error e
    | .ok v =>
      match RestResource.unmarshalElems res js with
      | .error e => .error e
      | .ok vs => .ok (v :: vs)

/-- Modelled from the spec: deserialization of a payload as a JSON array of
objects; a non-array payload is a DeserializationError. -/
def RestResource.unmarshalArray {T : Type} (res : RestResource T) (data : String) :
    Except RestError (List T) :=
  match res.parseJSON data with
  | some (Json.arr elems) => res.unmarshalElems elems
  | some _ => .error (.DeserializationError "payload is not a JSON array")
  | none => .error (.DeserializationError "payload is not JSON")

/-- Modelled from the spec: `GetOne(id)` of the generic REST resource, which is
not among the sources. It issues a read for `id` at the sub-path and
deserializes a single JSON object. -/
def RestResource.GetOne {T : Type} (res : RestResource T) (id : String) : Outcome T T :=
  match res.client.GetOne id res.resourcePath with
  | .error e => (.error (.TransportError e), [.GetOne id res.resourcePath])
  | .ok data => (res.unmarshalOne data, [.GetOne id res.resourcePath])

/-- Modelled from the spec: `GetAll()` of the generic REST resource, which is
not among the sources. It deserializes a JSON array. -/
def RestResource.GetAll {T : Type} (res : RestResource T) : Outcome T (List T) :=
  match res.client.GetAll res.resourcePath with
  | .error e => (.error (.TransportError e), [.GetAll res.resourcePath])
  | .ok data => (res.unmarshalArray data, [.GetAll res.resourcePath])

/-- Modelled from the spec: `Upsert(obj)` of the generic REST resource, which is
not among the sources. It calls `Validate()` first and fails fast with the
validation error; on valid input it issues a write with the object as payload
and deserializes the response body. -/
def RestResource.Upsert {T : Type} (res : RestResource T) (obj : T) : Outcome T T :=
  match res.object.Validate obj with
  | some msg => (.error (.ValidationError msg), [])
  | none =>
    match res.client.Put obj res.resourcePath with
    | .error e => (.error (.TransportError e), [.Put obj res.resourcePath])
    | .ok data => (res.unmarshalOne data, [.Put obj res.resourcePath])

/-- Modelled from the spec: `Delete(obj)` of the generic REST resource, which is
not among the sources. It deletes by `obj.GetID()` without local validation. -/
def RestResource.Delete {T : Type} (res : RestResource T) (obj : T) :
    Option RestError × List (TransportCall T) :=
  match res.client.Delete (res.object.GetID obj) res.resourcePath with
  | some e => (some (.TransportError e), [.Delete (res.object.GetID obj) res.resourcePath])
  | none => (none, [.Delete (res.object.GetID obj) res.resourcePath])

/-! ### Test doubles, after `rule-bindings_test.go` -/

/-- Source `makeTestRuleBindingWithCounter(1)` -/
def makeTestRuleBinding : RuleBinding :=
  { ID := "test-rule-binding-id-1", Enabled := false, Triggering := false, Severity := 1,
    Text := "Test Rule Binding Text 1", Description := "Test Rule Binding Description 1",
    ExpirationTime := 60000, Query := "entity.type:jvm", RuleIds := ["test-rule-id"] }

/-- The rule binding of `TestFailedUpsertOfRuleBindingBecauseOfInvalidRuleBinding`
(no ID). -/
def ruleBindingWithoutID : RuleBinding :=
  { ID := "", Enabled := false, Triggering := false, Severity := 1,
    Text := "test-text", Description := "test-description",
    ExpirationTime := 60000, Query := "entity.type:jvm", RuleIds := ["test-rule-id"] }

/-- Blankness on the empty string only; stands for `utils.IsBlank` where a
concrete function is needed to evaluate. -/
def emptyIsBlank (s : String) : Bool := s.data.isEmpty

/-- A mock transport client answering every read and write with `payload`. -/
def mockClient (payload : String) : RestClient RuleBinding :=
  { GetOne := fun _ _ => .ok payload
    GetAll := fun _ => .ok payload
    Put := fun _ _ => .ok payload
    Delete := fun _ _ => none }

/-- The text `json.Marshal(makeTestRuleBinding())` of the tests. -/
def testRuleBindingJSON : String :=
  "\x7b\"id\":\"test-rule-binding-id-1\",\"enabled\":false,\"triggering\":false," ++
  "\"severity\":1,\"text\":\"Test Rule Binding Text 1\"," ++
  "\"description\":\"Test Rule Binding Description 1\",\"expirationTime\":60000," ++
  "\"query\":\"entity.type:jvm\",\"ruleIds\":[\"test-rule-id\"]\x7d"

/-- The JSON value of `testRuleBindingJSON`. -/
def testRuleBindingValue : Json :=
  .obj [("id", .str "test-rule-binding-id-1"), ("enabled", .bool false),
    ("triggering", .bool false), ("severity", .num "1"),
    ("text", .str "Test Rule Binding Text 1"),
    ("description", .str "Test Rule Binding Description 1"),
    ("expirationTime", .num "60000"), ("query", .str "entity.type:jvm"),
    ("ruleIds", .arr [.str "test-rule-id"])]

/-- The object payload of the failure tests, an object with the single member
invalid. -/
def invalidObjectJSON : String := "\x7b \"invalid\" : \"data\" \x7d"

/-- The array payload of the failure tests, an array holding the object of
`invalidObjectJSON`. -/
def invalidArrayJSON : String := "[\x7b \"invalid\" : \"data\" \x7d]"

/-- The JSON reader on the payloads of the tests: the serialized test rule
binding (alone and as the single element of an array), the array and the object
of the failure tests are read; any other text is taken as malformed. -/
def testParseJSON (data : String) : Option Json :=
  if data = testRuleBindingJSON then
    some testRuleBindingValue
  else if data = "[" ++ testRuleBindingJSON ++ "]" then
    some (.arr [testRuleBindingValue])
  else if data = invalidArrayJSON then
    some (.arr [.obj [("invalid", .str "data")]])
  else if data = invalidObjectJSON then
    some (.obj [("invalid", .str "data")])
  else none

/-- Reading of a string member of a JSON object; an absent member leaves the
zero value. -/
def stringMember (members : List (String × Json)) (key : String) : String :=
  match members.lookup key with
  | some (.str s) => s
  | _ => ""

/-- Reading of a boolean member of a JSON object. -/
def boolMember (members : List (String × Json)) (key : String) : Bool :=
  match members.lookup key with
  | some (.bool b) => b
  | _ => false

/-- Reading of a member holding an unsigned decimal literal. -/
def intMember (members : List (String × Json)) (key : String) : Int :=
  match members.lookup key with
  | some (.num literal) =>
    Int.ofNat (literal.data.foldl (fun n d => 10 * n + (d.toNat - '0'.toNat)) 0)
  | _ => 0

/-- Reading of a member holding an array of strings. -/
def stringsMember (members : List (String × Json)) (key : String) : List String :=
  match members.lookup key with
  | some (.arr elems) =>
    elems.filterMap (fun j => match j with
      | .str s => some s
      | _ => none)
  | _ => []

/-- A reader of rule bindings for the test payloads: each field is taken from
the member of its name, an absent member leaving the zero value. -/
def testRuleBindingFromJSON (members : List (String × Json)) : Except String RuleBinding :=
  .ok { ID := stringMember members "id"
        Enabled := boolMember members "enabled"
        Triggering := boolMember members "triggering"
        Severity := intMember members "severity"
        Text := stringMember members "text"
        Description := stringMember members "description"
        ExpirationTime := intMember members "expirationTime"
        Query := stringMember members "query"
        RuleIds := stringsMember members "ruleIds" }

/-- The rule binding resource over a mock client answering with `payload`. -/
def testRuleBindingResource (payload : String) : RestResource RuleBinding :=
  { resourcePath := "/ruleBindings"
    client := mockClient payload
    object := { GetID := RuleBinding.GetID
                Validate := RuleBinding.Validate emptyIsBlank
                FromJSON := testRuleBindingFromJSON }
    parseJSON := testParseJSON }

/-! ## Resource handles

`resource-alerting-config.go` and `resource-application-config.go`. The types
of the `filterexpression` package (expressions) and the match expressions of
the API are the type arguments `E` and `M`; its parser and mapper are the
arguments `parse`, `toAPIModel`, `fromAPIModel` and `render`; the name formatter
is the argument `format`. -/

def AlertingConfigFieldAlertName : String := "alert_name"
def AlertingConfigFieldFullAlertName : String := "full_alert_name"
def ApplicationConfigFieldLabel : String := "label"
def ApplicationConfigFieldFullLabel : String := "full_label"
def ApplicationConfigFieldScope : String := "scope"
def ApplicationConfigFieldBoundaryScope : String := "boundary_scope"
def ApplicationConfigFieldMatchSpecification : String := "match_specification"

/-- Terraform `schema.ResourceData`, restricted to what the embedded functions
use: the id, the value of each string attribute as `d.Get(key).(string)` reads
it, and the answer of `d.HasChange(key)`. -/
structure ResourceData where
  id : String
  attrs : String → String
  changed : String → Bool

/-- Method `d.Id()`. -/
def ResourceData.Id (d : ResourceData) : String := d.id

/-- Method `d.Get(key).(string)`. -/
def ResourceData.Get (d : ResourceData) (key : String) : String := d.attrs key

/-- Method `d.HasChange(key)`. -/
def ResourceData.HasChange (d : ResourceData) (key : String) : Bool := d.changed key

/-- Method `d.Set(key, value)` on a string attribute of the schema. -/
def ResourceData.Set (d : ResourceData) (key value : String) : ResourceData :=
  { d with attrs := fun k => if k = key then value else d.attrs k }

/-- Method `d.SetId(id)`. -/
def ResourceData.SetId (d : ResourceData) (id : String) : ResourceData :=
  { d with id := id }

/-- Function `computeFullAlertingConfigAlertNameString`. -/
def computeFullAlertingConfigAlertNameString (d : ResourceData) (format : String → String) :
    String :=
  if d.HasChange AlertingConfigFieldAlertName then
    format (d.Get AlertingConfigFieldAlertName)
  else
    d.Get AlertingConfigFieldFullAlertName

/-- Function `computeFullApplicationConfigLabelString`. -/
def computeFullApplicationConfigLabelString (d : ResourceData) (format : String → String) :
    String :=
  if d.HasChange ApplicationConfigFieldLabel then
    format (d.Get ApplicationConfigFieldLabel)
  else
    d.Get ApplicationConfigFieldFullLabel

/-- The struct `restapi.ApplicationConfig` with the fields the resource handle
reads and writes; `MatchSpecification` is an interface value, `none` being
nil. -/
structure ApplicationConfig (M : Type) where
  ID : String
  Label : String
  Scope : String
  BoundaryScope : String
  MatchSpecification : Option M

/-- The zero value `restapi.ApplicationConfig{}`. -/
def ApplicationConfig.empty {M : Type} : ApplicationConfig M :=
  { ID := "", Label := "", Scope := "", BoundaryScope := "", MatchSpecification := none }

/-- Function `mapExpressionStringToAPIModel`: the pair of the returned match
expression (an interface value, `none` being nil) and the returned error. -/
def mapExpressionStringToAPIModel {E M : Type} (parse : String → Except String E)
    (toAPIModel : E → Option M) (input : String) : Option M × GoError :=
  match parse input with
  | .error err => (none, some err)
  | .ok expr => (toAPIModel expr, none)

/-- Function `mapStateToDataObjectForApplicationConfig`. -/
def mapStateToDataObjectForApplicationConfig {E M : Type} (parse : String → Except String E)
    (toAPIModel : E → Option M) (d : ResourceData) (format : String → String) :
    ApplicationConfig M × GoError :=
  match mapExpressionStringToAPIModel parse toAPIModel
      (d.Get ApplicationConfigFieldMatchSpecification) with
  | (_, some err) => (ApplicationConfig.empty, some err)
  | (matchSpecification, none) =>
    let label := computeFullApplicationConfigLabelString d format
    ({ ID := d.Id
       Label := label
       Scope := d.Get ApplicationConfigFieldScope
       BoundaryScope := d.Get ApplicationConfigFieldBoundaryScope
       MatchSpecification := matchSpecification }, none)

/-- Function `mapAPIModelToNormalizedStringRepresentation`. -/
def mapAPIModelToNormalizedStringRepresentation {E M : Type}
    (fromAPIModel : M → Except String E) (render : E → String) (input : M) :
    String × GoError :=
  match fromAPIModel input with
  | .error err => ("", some err)
  | .ok expr => (render expr, none)

/-- Function `updateStateForApplicationConfig`: the resource data after the call
and the returned error. The result is `none` when the type assertion
`applicationConfig.MatchSpecification.(restapi.MatchExpression)` panics, which
it does on a nil match specification. -/
def updateStateForApplicationConfig {E M : Type} (fromAPIModel : M → Except String E)
    (render : E → String) (d : ResourceData) (applicationConfig : ApplicationConfig M) :
    Option (ResourceData × GoError) :=
  match applicationConfig.MatchSpecification with
  | none => none
  | some matchSpecification =>
    match mapAPIModelToNormalizedStringRepresentation fromAPIModel render
        matchSpecification with
    | (_, some err) => some (d, some err)
    | (normalizedExpressionString, none) =>
      let d1 := d.Set ApplicationConfigFieldFullLabel applicationConfig.Label
      let d2 := d1.Set ApplicationConfigFieldScope applicationConfig.Scope
      let d3 := d2.Set ApplicationConfigFieldBoundaryScope applicationConfig.BoundaryScope
      let d4 := d3.Set ApplicationConfigFieldMatchSpecification normalizedExpressionString
      some (d4.SetId applicationConfig.ID, none)

/-- A raw state `map[string]interface{}`, always an initialised map: the value
under each key, `none` for a key that is absent; the values are those of
decoded JSON, `Json.null` being the nil interface. -/
abbrev RawState := String → Option Json

/-- The index expression `rawState[key]`: nil for an absent key. -/
def RawState.index (rawState : RawState) (key : String) : Json :=
  match rawState key with
  | some v => v
  | none => Json.null

/-- The assignment `rawState[key] = value`. -/
def RawState.assign (rawState : RawState) (key : String) (value : Json) : RawState :=
  fun k => if k = key then some value else rawState k

/-- Function `applicationConfigStateUpgradeV0`; its argument `meta` is not
used. -/
def applicationConfigStateUpgradeV0 (rawState : RawState) : RawState × GoError :=
  (rawState.assign ApplicationConfigFieldFullLabel
    (rawState.index ApplicationConfigFieldLabel), none)

/-! ## Filter expressions

The package `filterexpression` is not among the sources. -/

/-- Modelled from the spec: the logical operators of a binary expression. -/
inductive LogicalOperator where
  | AND
  | OR
  deriving DecidableEq, Repr

/-- Modelled from the spec: the comparison operators named in the data model. -/
inductive ComparisonOperator where
  | EQUALS
  | NOT_EQUAL
  | CONTAINS
  | NOT_CONTAINS
  | IS_EMPTY
  | NOT_EMPTY
  deriving DecidableEq, Repr

/-- Modelled from the spec: the expression node, a tagged variant of
`BinaryOp`, `UnaryNot` and `Comparison`; the AST type is not among the
sources. -/
inductive Expression where
  | BinaryOp (Operator : LogicalOperator) (Left Right : Expression)
  | UnaryNot (Operand : Expression)
  | Comparison (Entity : Option String) (Tag : String) (Operator : ComparisonOperator)
      (Value : Option String)
  deriving DecidableEq, Repr

/-- Modelled from the spec: the match-expression model of the API, with the
node kinds `LogicalAnd`, `LogicalOr` and `TagMatcherExpression`; the type is
not among the sources. -/
inductive APINode where
  | LogicalAnd (left right : APINode)
  | LogicalOr (left right : APINode)
  | TagMatcherExpression (entity : Option String) (key : String) (operator : String)
      (value : Option String)
  deriving DecidableEq, Repr

/-- Whether the expression is a binary (AND/OR) expression. -/
def Expression.isBinary : Expression → Bool
  | .BinaryOp _ _ _ => true
  | _ => false

/-- Whether NOT is applied to a binary expression somewhere in the
expression. -/
def Expression.hasNotOverBinary : Expression → Bool
  | .BinaryOp _ l r => l.hasNotOverBinary || r.hasNotOverBinary
  | .UnaryNot e => e.isBinary || e.hasNotOverBinary
  | .Comparison _ _ _ _ => false

/-- The tokens of the expression text. -/
inductive Token where
  | lparen
  | rparen
  | colon
  | word (text : String)
  | quoted (text : String)
  deriving DecidableEq, Repr

/-- The states of the tokenizer. -/
inductive LexMode where
  | outside
  | inWord
  | inQuote
  | escaped
  deriving DecidableEq, Repr

/-- The double quote character. -/
def quoteChar : Char := Char.ofNat 34

/-- The backslash character. -/
def escapeChar : Char := Char.ofNat 92

/-- The word read so far (in reverse) becomes a token. -/
def closeWord (cur : List Char) (acc : List Token) : List Token :=
  Token.word (String.mk cur.reverse) :: acc

/-- Modelled from the spec: the tokenizer of the parser, which is not among the
sources. It recognizes identifiers (dotted names among them) and operator
keywords as words, quoted string literals with escaped quotes, and
parentheses; white space is insignificant between tokens and literal inside
quoted values. -/
def tokenizeFrom : LexMode → List Char → List Char → List Token → Except String (List Token)
  | .outside, [], _, acc => .ok acc.reverse
  | .inWord, [], cur, acc => .ok (closeWord cur acc).reverse
  | .inQuote, [], _, _ => .error "unexpected end of input inside a quoted value"
  | .escaped, [], _, _ => .error "unexpected end of input inside a quoted value"
  | .outside, c :: cs, _, acc =>
    if c = '(' then tokenizeFrom .outside cs [] (Token.lparen :: acc)
    else if c = ')' then tokenizeFrom .outside cs [] (Token.rparen :: acc)
    else if c = ':' then tokenizeFrom .outside cs [] (Token.colon :: acc)
    else if c = quoteChar then tokenizeFrom .inQuote cs [] acc
    else if c.isWhitespace then tokenizeFrom .outside cs [] acc
    else tokenizeFrom .inWord cs [c] acc
  | .inWord, c :: cs, cur, acc =>
    if c = '(' then tokenizeFrom .outside cs [] (Token.lparen :: closeWord cur acc)
    else if c = ')' then tokenizeFrom .outside cs [] (Token.rparen :: closeWord cur acc)
    else if c = ':' then tokenizeFrom .outside cs [] (Token.colon :: closeWord cur acc)
    else if c = quoteChar then tokenizeFrom .inQuote cs [] (closeWord cur acc)
    else if c.isWhitespace then tokenizeFrom .outside cs [] (closeWord cur acc)
    else tokenizeFrom .inWord cs (c :: cur) acc
  | .inQuote, c :: cs, cur, acc =>
    if c = escapeChar then tokenizeFrom .escaped cs cur acc
    else if c = quoteChar then
      tokenizeFrom .outside cs [] (Token.quoted (String.mk cur.reverse) :: acc)
    else tokenizeFrom .inQuote cs (c :: cur) acc
  | .escaped, c :: cs, cur, acc => tokenizeFrom .inQuote cs (c :: cur) acc

/-- The tokens of a text. -/
def tokenize (text : String) : Except String (List Token) :=
  tokenizeFrom .outside text.data [] []

/-- The text of a token, for error messages. -/
def Token.describe : Token → String
  | .lparen => "("
  | .rparen => ")"
  | .colon => ":"
  | .word w => w
  | .quoted q => "\"" ++ q ++ "\""

/-- The comparison operator of a keyword. -/
def comparisonOperatorOf (keyword : String) : Option ComparisonOperator :=
  if keyword = "EQUALS" then some .EQUALS
  else if keyword = "NOT_EQUAL" then some .NOT_EQUAL
  else if keyword = "CONTAINS" then some .CONTAINS
  else if keyword = "NOT_CONTAINS" then some .NOT_CONTAINS
  else if keyword = "IS_EMPTY" then some .IS_EMPTY
  else if keyword = "NOT_EMPTY" then some .NOT_EMPTY
  else none

/-- Whether the operator takes a value; the emptiness operators take none. -/
def ComparisonOperator.requiresValue : ComparisonOperator → Bool
  | .IS_EMPTY => false
  | .NOT_EMPTY => false
  | _ => true

/-- The keywords of the logical operators. -/
def isReserved (w : String) : Bool := w = "AND" || w = "OR" || w = "NOT"

/-- The text of a ParseError: the reason, the offending token and its
position among the `total` tokens of the input. -/
def parseError (total : Nat) (reason : String) (rest : List Token) : String :=
  match rest with
  | [] => reason ++ ": unexpected end of input at position " ++ toString total
  | t :: ts =>
    reason ++ ": " ++ t.describe ++ " at position " ++ toString (total - (ts.length + 1))

/-- Modelled from the spec: the rest of `comparison := [entity ":"] tag operator
[value]` after the tag; a missing operator, an unknown operator keyword and a
missing value for a value-requiring operator are errors. -/
def parseOperatorAndValue (total : Nat) (entity : Option String) (tag : String) :
    List Token → Except String (Expression × List Token)
  | Token.word kw :: rest =>
    match comparisonOperatorOf kw with
    | none => .error (parseError total "unknown operator keyword" (Token.word kw :: rest))
    | some op =>
      if op.requiresValue then
        match rest with
        | Token.word v :: rest' =>
          if isReserved v then .error (parseError total "missing value" rest)
          else .ok (.Comparison entity tag op (some v), rest')
        | Token.quoted v :: rest' => .ok (.Comparison entity tag op (some v), rest')
        | _ => .error (parseError total "missing value" rest)
      else .ok (.Comparison entity tag op none, rest)
  | rest => .error (parseError total "missing operator" rest)

/-- Modelled from the spec: `comparison := [entity ":"] tag operator [value]`. -/
def parseComparison (total : Nat) : List Token → Except String (Expression × List Token)
  | Token.word entity :: Token.colon :: Token.word tag :: rest =>
    if isReserved entity || isReserved tag then
      .error (parseError total "unexpected token"
        (Token.word entity :: Token.colon :: Token.word tag :: rest))
    else parseOperatorAndValue total (some entity) tag rest
  | Token.word tag :: rest =>
    if isReserved tag then .error (parseError total "unexpected token" (Token.word tag :: rest))
    else parseOperatorAndValue total none tag rest
  | rest => .error (parseError total "unexpected token" rest)

mutual
/-- Modelled from the spec: `orExpr := andExpr (OR andExpr)*`. The first
argument of each parsing function is the number of tokens of the input, the
second bounds the depth of the calls. -/
def parseOr (total : Nat) : Nat → List Token → Except String (Expression × List Token)
  | 0, _ => .error "expression nested too deeply"
  | fuel + 1, tokens =>
    match parseAnd total fuel tokens with
    | .error e => .error e
    | .ok (left, rest) => parseOrRest total fuel left rest
/-- Modelled from the spec: the repetition `(OR andExpr)*`, associating to the
left. -/
def parseOrRest (total : Nat) :
    Nat → Expression → List Token → Except String (Expression × List Token)
  | 0, _, _ => .error "expression nested too deeply"
  | fuel + 1, left, Token.word w :: rest =>
    if w = "OR" then
      match parseAnd total fuel rest with
      | .error e => .error e
      | .ok (right, rest') => parseOrRest total fuel (.BinaryOp .OR left right) rest'
    else .ok (left, Token.word w :: rest)
  | _ + 1, left, tokens => .ok (left, tokens)
/-- Modelled from the spec: `andExpr := unary (AND unary)*`. -/
def parseAnd (total : Nat) : Nat → List Token → Except String (Expression × List Token)
  | 0, _ => .error "expression nested too deeply"
  | fuel + 1, tokens =>
    match parseUnary total fuel tokens with
    | .error e => .error e
    | .ok (left, rest) => parseAndRest total fuel left rest
/-- Modelled from the spec: the repetition `(AND unary)*`, associating to the
left. -/
def parseAndRest (total : Nat) :
    Nat → Expression → List Token → Except String (Expression × List Token)
  | 0, _, _ => .error "expression nested too deeply"
  | fuel + 1, left, Token.word w :: rest =>
    if w = "AND" then
      match parseUnary total fuel rest with
      | .error e => .error e
      | .ok (right, rest') => parseAndRest total fuel (.BinaryOp .AND left right) rest'
    else .ok (left, Token.word w :: rest)
  | _ + 1, left, tokens => .ok (left, tokens)
/-- Modelled from the spec: `unary := NOT unary | primary`. -/
def parseUnary (total : Nat) : Nat → List Token → Except String (Expression × List Token)
  | 0, _ => .error "expression nested too deeply"
  | fuel + 1, Token.word w :: rest =>
    if w = "NOT" then
      match parseUnary total fuel rest with
      | .error e => .error e
      | .ok (operand, rest') => .ok (.UnaryNot operand, rest')
    else parsePrimary total fuel (Token.word w :: rest)
  | fuel + 1, tokens => parsePrimary total fuel tokens
/-- Modelled from the spec: `primary := "(" expr ")" | comparison`. -/
def parsePrimary (total : Nat) : Nat → List Token → Except String (Expression × List Token)
  | 0, _ => .error "expression nested too deeply"
  | fuel + 1, Token.lparen :: rest =>
    match parseOr total fuel rest with
    | .error e => .error e
    | .ok (inner, Token.rparen :: rest') => .ok (inner, rest')
    | .ok (_, rest') => .error (parseError total "unbalanced parentheses" rest')
  | _ + 1, tokens => parseComparison total tokens
end

/-- Modelled from the spec: `Parse(text)` of the expression parser, which is not
among the sources. Empty or white-space-only input is an error, and so is any
token left after the expression. The depth of the nested calls is bounded by
`4 * n + 4` for `n` tokens. -/
def FilterExpression.Parse (text : String) : Except String Expression :=
  match tokenize text with
  | .error e => .error e
  | .ok [] => .error "empty expression"
  | .ok tokens =>
    match parseOr tokens.length (4 * tokens.length + 4) tokens with
    | .error e => .error e
    | .ok (expr, []) => .ok expr
    | .ok (_, rest) => .error (parseError tokens.length "unexpected token" rest)

/-- Modelled from the spec: `FromAPIModel(node)` of the mapper, which is not
among the sources: the reverse translation of the API tree, failing with a
MappingError on an operator that has no local textual equivalent. -/
def FilterExpression.FromAPIModel : APINode → Except String Expression
  | .LogicalAnd l r =>
    match FilterExpression.FromAPIModel l, FilterExpression.FromAPIModel r with
    | .ok a, .ok b => .ok (.BinaryOp .AND a b)
    | .error e, _ => .error e
    | _, .error e => .error e
  | .LogicalOr l r =>
    match FilterExpression.FromAPIModel l, FilterExpression.FromAPIModel r with
    | .ok a, .ok b => .ok (.BinaryOp .OR a b)
    | .error e, _ => .error e
    | _, .error e => .error e
  | .TagMatcherExpression entity key operator value =>
    match comparisonOperatorOf operator with
    | some op => .ok (.Comparison entity key op value)
    | none => .error ("unsupported operator " ++ operator)

/-- The keyword of a comparison operator. -/
def ComparisonOperator.keyword : ComparisonOperator → String
  | .EQUALS => "EQUALS"
  | .NOT_EQUAL => "NOT_EQUAL"
  | .CONTAINS => "CONTAINS"
  | .NOT_CONTAINS => "NOT_CONTAINS"
  | .IS_EMPTY => "IS_EMPTY"
  | .NOT_EMPTY => "NOT_EMPTY"

/-- Whether the expression is an OR expression. -/
def Expression.isOr : Expression → Bool
  | .BinaryOp .OR _ _ => true
  | _ => false

/-- Whether a value is rendered in quotes: it holds white space or a reserved
character, is empty, or is a keyword. -/
def needsQuotes (v : String) : Bool :=
  v.data.isEmpty || isReserved v ||
    v.data.any (fun c => c.isWhitespace || c = '(' || c = ')' || c = ':' || c = quoteChar ||
      c = escapeChar)

/-- A value in quotes, its quotes and backslashes escaped. -/
def quoteValue (v : String) : String :=
  String.mk (quoteChar :: (v.data.flatMap (fun c =>
    if c = quoteChar || c = escapeChar then [escapeChar, c] else [c]) ++ [quoteChar]))

/-- Modelled from the spec: `Render(expr)` of the renderer, which is not among
the sources: the canonical text, with parentheses only where an OR (or, on the
right, any binary expression) is a child of an AND and where a NOT wraps a
binary expression, with normalized operator keywords, and with quotes around
the values that need them. -/
def FilterExpression.Render : Expression → String
  | .BinaryOp .OR l r => FilterExpression.Render l ++ " OR " ++ FilterExpression.Render r
  | .BinaryOp .AND l r =>
    (if l.isOr then "(" ++ FilterExpression.Render l ++ ")" else FilterExpression.Render l)
      ++ " AND " ++
    (if r.isBinary then "(" ++ FilterExpression.Render r ++ ")" else FilterExpression.Render r)
  | .UnaryNot e =>
    if e.isBinary then "NOT (" ++ FilterExpression.Render e ++ ")"
    else "NOT " ++ FilterExpression.Render e
  | .Comparison entity tag op value =>
    (match entity with
      | some en => en ++ ":"
      | none => "") ++ tag ++ " " ++ op.keyword ++
    (match value with
      | some v => " " ++ (if needsQuotes v then quoteValue v else v)
      | none => "")

/-- An application config as the API returns it, with a match specification
the mapper translates. -/
def testApplicationConfig : ApplicationConfig APINode :=
  { ID := "app-1", Label := "prefix shop suffix", Scope := "INCLUDE_NO_DOWNSTREAM",
    BoundaryScope := "DEFAULT",
    MatchSpecification := some (.LogicalAnd
      (.TagMatcherExpression none "entity.type" "EQUALS" (some "jvm"))
      (.TagMatcherExpression none "status" "NOT_EMPTY" none)) }

/-- An application config whose match specification holds an operator without
a local equivalent. -/
def unmappableApplicationConfig : ApplicationConfig APINode :=
  { ID := "app-2", Label := "other", Scope := "INCLUDE_ALL_DOWNSTREAM",
    BoundaryScope := "ALL",
    MatchSpecification := some (.TagMatcherExpression none "entity.type" "MATCHES" (some "j")) }

/-- A raw state of schema version 0: a label and no full label. -/
def testRawState : RawState := fun k =>
  if k = "label" then some (.str "shop")
  else if k = "scope" then some (.str "INCLUDE_NO_DOWNSTREAM")
  else none

/-- A match specification in which NOT is applied to an AND expression. -/
def negatedConjunctionText : String := "NOT (a EQUALS 1 AND b EQUALS 2)"

/-- The expression of `negatedConjunctionText`. -/
def negatedConjunction : Expression :=
  .UnaryNot (.BinaryOp .AND (.Comparison none "a" .EQUALS (some "1"))
    (.Comparison none "b" .EQUALS (some "2")))

/-- Resource data of an application config whose label has changed. -/
def testApplicationConfigData (matchSpecification : String) : ResourceData :=
  { id := "app-1"
    attrs := fun k =>
      if k = "label" then "shop"
      else if k = "full_label" then "prefix shop suffix"
      else if k = "scope" then "INCLUDE_NO_DOWNSTREAM"
      else if k = "boundary_scope" then "DEFAULT"
      else if k = "match_specification" then matchSpecification
      else ""
    changed := fun k => k = "label" }

/-- A formatter that puts a prefix and a suffix around the name. -/
def testFormat (name : String) : String := "prefix " ++ name ++ " suffix"

/-! ## Theorems -/

/-! ### Helper lemmas -/

theorem stringSliceElementsAreUnique_iff_nodup (xs : List String) :
    StringSliceElementsAreUnique xs = true ↔ xs.Nodup := by
  induction xs with
  | nil => simp [StringSliceElementsAreUnique]
  | cons x xs ih =>
    simp [StringSliceElementsAreUnique, ih, List.nodup_cons]

theorem stringSliceElementsAreUnique_eq_false_iff (xs : List String) :
    StringSliceElementsAreUnique xs = false ↔
      ∃ i j : Nat, i < j ∧ j < xs.length ∧ xs[i]? = xs[j]? := by
  rw [← Bool.not_eq_true, stringSliceElementsAreUnique_iff_nodup,
    List.nodup_iff_getElem?_ne_getElem?]
  push_neg
  rfl

theorem eventTypeSliceToStringSlice_eq (input : List AlertEventType) :
    eventTypeSliceToStringSlice input = input := by
  cases input <;> simp [eventTypeSliceToStringSlice]

theorem validateEventTypes_eq_find (table : Char → Char) (ts : List AlertEventType) :
    validateEventTypes table ts =
      (ts.find? (fun t => !IsSupportedAlertEventType table t)).map unsupportedMessage := by
  induction ts with
  | nil => rfl
  | cons t ts ih =>
    by_cases h : IsSupportedAlertEventType table t = true
    · simp [validateEventTypes, List.find?_cons, h, ih]
    · simp [validateEventTypes, List.find?_cons, h]

theorem validateEventTypes_eq_none_iff (table : Char → Char) (ts : List AlertEventType) :
    validateEventTypes table ts = none ↔
      ∀ t ∈ ts, IsSupportedAlertEventType table t = true := by
  rw [validateEventTypes_eq_find]
  simp [List.find?_eq_none]

/-- The method `Validate` of an event filtering configuration accepts exactly when every
one of its checks passes. -/
theorem eventFiltering_validate_eq_none_iff (table : Char → Char)
    (c : EventFilteringConfiguration) :
    c.Validate table = none ↔
      (∀ q, c.Query = some q → len q ≤ 2048) ∧
      ((c.RuleIDs = [] ∧ c.EventTypes ≠ []) ∨ (c.RuleIDs ≠ [] ∧ c.EventTypes = [])) ∧
      c.RuleIDs.length ≤ 1024 ∧
      c.RuleIDs.Nodup ∧
      c.EventTypes.length ≤ 8 ∧
      c.EventTypes.Nodup ∧
      (∀ t ∈ c.EventTypes, IsSupportedAlertEventType table t = true) := by
  obtain ⟨q, rs, es⟩ := c
  have hlen : SupportedAlertEventTypes.length = 8 := rfl
  simp only [EventFilteringConfiguration.Validate, hlen, eventTypeSliceToStringSlice_eq]
  have hr := stringSliceElementsAreUnique_iff_nodup rs
  have he := stringSliceElementsAreUnique_iff_nodup es
  have hv := validateEventTypes_eq_none_iff table es
  cases q with
  | none =>
    cases rs <;> cases es <;> simp_all <;> split_ifs <;> simp_all <;> omega
  | some q =>
    cases rs <;> cases es <;> simp_all <;> split_ifs <;> simp_all <;> omega

/-! ### C1: mutual exclusivity of RuleIDs and EventTypes -/

/-- C1: an event filtering configuration whose RuleIDs and EventTypes are both
empty or both non-empty is rejected by `Validate`; equivalently, whenever
`Validate` returns nil exactly one of RuleIDs and EventTypes is non-empty. -/
theorem validate_exclusivity (table : Char → Char) (c : EventFilteringConfiguration) :
    (((c.RuleIDs.length = 0 ∧ c.EventTypes.length = 0) ∨
        (c.RuleIDs.length > 0 ∧ c.EventTypes.length > 0)) →
      ∃ msg, c.Validate table = some msg) ∧
    (c.Validate table = none →
      ((c.RuleIDs.length > 0 ∧ c.EventTypes.length = 0) ∨
        (c.RuleIDs.length = 0 ∧ c.EventTypes.length > 0))) := by
  have key : c.Validate table = none →
      ((c.RuleIDs.length > 0 ∧ c.EventTypes.length = 0) ∨
        (c.RuleIDs.length = 0 ∧ c.EventTypes.length > 0)) := by
    intro h
    have h2 := ((eventFiltering_validate_eq_none_iff table c).1 h).2.1
    rcases h2 with ⟨hr, he⟩ | ⟨hr, he⟩
    · right
      exact ⟨by simp [hr], List.length_pos.2 he⟩
    · left
      exact ⟨List.length_pos.2 hr, by simp [he]⟩
  refine ⟨?_, key⟩
  intro h
  cases hv : c.Validate table with
  | some msg => exact ⟨msg, rfl⟩
  | none =>
    exfalso
    have := key hv
    omega

/-- Witness of C1: the configuration with neither list and the one with both
lists are rejected, and the accepted one with a single rule id has exactly one
non-empty list. -/
theorem validate_exclusivity_witness :
    (∃ msg, EventFilteringConfiguration.Validate asciiOnlyTable ⟨none, [], []⟩ = some msg) ∧
    (∃ msg, EventFilteringConfiguration.Validate asciiOnlyTable
      ⟨none, ["rule-1"], ["incident"]⟩ = some msg) ∧
    (((["rule-1"] : List String).length > 0 ∧ ([] : List AlertEventType).length = 0) ∨
      ((["rule-1"] : List String).length = 0 ∧ ([] : List AlertEventType).length > 0)) :=
  ⟨(validate_exclusivity asciiOnlyTable ⟨none, [], []⟩).1 (Or.inl ⟨rfl, rfl⟩),
   (validate_exclusivity asciiOnlyTable ⟨none, ["rule-1"], ["incident"]⟩).1
     (Or.inr ⟨by decide, by decide⟩),
   (validate_exclusivity asciiOnlyTable ⟨none, ["rule-1"], []⟩).2 (by decide)⟩

/-! ### C3: supported alert event types -/

theorem toLower_supported (table : Char → Char) (name : AlertEventType)
    (h : name ∈ SupportedAlertEventTypes) : ToLower table name = name := by
  simp only [SupportedAlertEventTypes, List.mem_cons, List.mem_singleton, List.not_mem_nil,
    or_false] at h
  rcases h with h | h | h | h | h | h | h | h <;> subst h <;> rfl

theorem unicodeToLower_of_not_upper (table : Char → Char) (b : Char)
    (h : b.toNat ≤ 127 ∧ (b.toNat < 65 ∨ 90 < b.toNat)) : unicodeToLower table b = b := by
  have hA : 'A'.toNat = 65 := rfl
  have hZ : 'Z'.toNat = 90 := rfl
  unfold unicodeToLower
  rw [if_pos h.1, hA, hZ, if_neg (by omega)]

theorem unicodeToLower_of_upper (table : Char → Char) (a b : Char)
    (hb : 'a'.toNat ≤ b.toNat ∧ b.toNat ≤ 'z'.toNat ∧
      a.toNat + ('a'.toNat - 'A'.toNat) = b.toNat) : unicodeToLower table a = b := by
  have hA : 'A'.toNat = 65 := rfl
  have hZ : 'Z'.toNat = 90 := rfl
  have ha : 'a'.toNat = 97 := rfl
  have hz : 'z'.toNat = 122 := rfl
  rw [hA, ha, hz] at hb
  unfold unicodeToLower
  rw [if_pos (by omega), hA, hZ, ha, if_pos (by omega), hb.2.2]
  exact Char.ofNat_toNat b

theorem map_unicodeToLower_of_forall₂ (table : Char → Char) (vs ns : List Char)
    (h : List.Forall₂
      (fun a b => a = b ∨ ('a'.toNat ≤ b.toNat ∧ b.toNat ≤ 'z'.toNat ∧
        a.toNat + ('a'.toNat - 'A'.toNat) = b.toNat)) vs ns)
    (hname : ∀ b ∈ ns, b.toNat ≤ 127 ∧ (b.toNat < 65 ∨ 90 < b.toNat)) :
    vs.map (unicodeToLower table) = ns := by
  induction h with
  | nil => rfl
  | @cons a b l₁ l₂ hab _ ih =>
    have hb := hname b (List.mem_cons_self _ _)
    have ht := ih (fun c hc => hname c (List.mem_cons_of_mem _ hc))
    rw [List.map_cons, ht]
    congr 1
    rcases hab with rfl | hup
    · exact unicodeToLower_of_not_upper table a hb
    · exact unicodeToLower_of_upper table a b hup

theorem toLower_of_caseVariant (table : Char → Char) (v name : String)
    (hname : ∀ b ∈ name.data, b.toNat ≤ 127 ∧ (b.toNat < 65 ∨ 90 < b.toNat))
    (h : IsCaseVariantOf v name) : ToLower table v = name := by
  unfold ToLower
  rw [map_unicodeToLower_of_forall₂ table v.data name.data h hname]

theorem supported_names_lower (name : AlertEventType) (h : name ∈ SupportedAlertEventTypes) :
    ∀ b ∈ name.data, b.toNat ≤ 127 ∧ (b.toNat < 65 ∨ 90 < b.toNat) := by
  simp only [SupportedAlertEventTypes, List.mem_cons, List.mem_singleton, List.not_mem_nil,
    or_false] at h
  rcases h with h | h | h | h | h | h | h | h <;> subst h <;> decide

/-- C3: `IsSupportedAlertEventType t` is true exactly when the lower-cased
string of `t` is one of the eight names incident, critical, warning, change,
online, offline, none, agent_monitoring_issue; in particular every
upper/lower-case variant of a supported name is supported. -/
theorem isSupportedAlertEventType_iff (table : Char → Char) (t : AlertEventType) :
    (IsSupportedAlertEventType table t = true ↔
      ToLower table t ∈ ["incident", "critical", "warning", "change", "online", "offline",
        "none", "agent_monitoring_issue"]) ∧
    (∀ name ∈ ["incident", "critical", "warning", "change", "online", "offline",
        "none", "agent_monitoring_issue"],
      IsCaseVariantOf t name → IsSupportedAlertEventType table t = true) := by
  have hiff : IsSupportedAlertEventType table t = true ↔
      ToLower table t ∈ SupportedAlertEventTypes := by
    simp only [IsSupportedAlertEventType, List.any_eq_true, AlertEventType.Equals,
      beq_iff_eq]
    constructor
    · rintro ⟨s, hs, he⟩
      rw [toLower_supported table s hs] at he
      exact he ▸ hs
    · intro h
      exact ⟨ToLower table t, h, toLower_supported table _ h⟩
  refine ⟨hiff, ?_⟩
  intro name hname hv
  have hname' : name ∈ SupportedAlertEventTypes := hname
  rw [hiff, toLower_of_caseVariant table t name (supported_names_lower name hname') hv]
  exact hname'

/-- Witness of C3: `"InCiDeNt"` is a case variant of `"incident"`. -/
theorem isSupportedAlertEventType_iff_witness :
    IsSupportedAlertEventType asciiOnlyTable "InCiDeNt" = true :=
  (isSupportedAlertEventType_iff asciiOnlyTable "InCiDeNt").2 "incident" (by decide)
    (by unfold IsCaseVariantOf; decide)

/-! ### C4: uniqueness of RuleIDs and EventTypes -/

/-- C4: a configuration in which RuleIDs holds the same string at two different
positions, or EventTypes holds the same value at two different positions, is
rejected by `Validate`. -/
theorem validate_rejects_repeated_elements (table : Char → Char)
    (c : EventFilteringConfiguration)
    (h : (∃ i j : Nat, i ≠ j ∧ ∃ s, c.RuleIDs[i]? = some s ∧ c.RuleIDs[j]? = some s) ∨
         (∃ i j : Nat, i ≠ j ∧ ∃ t, c.EventTypes[i]? = some t ∧ c.EventTypes[j]? = some t)) :
    ∃ msg, c.Validate table = some msg := by
  have dup : ∀ (xs : List String), (∃ i j : Nat, i ≠ j ∧ ∃ s, xs[i]? = some s ∧ xs[j]? = some s) →
      ¬ xs.Nodup := by
    intro xs ⟨i, j, hij, s, hi, hj⟩ hnd
    rw [List.nodup_iff_getElem?_ne_getElem?] at hnd
    have hi' : i < xs.length := (List.getElem?_eq_some.1 hi).1
    have hj' : j < xs.length := (List.getElem?_eq_some.1 hj).1
    rcases Nat.lt_or_gt_of_ne hij with hlt | hlt
    · exact hnd i j hlt hj' (hi.trans hj.symm)
    · exact hnd j i hlt hi' (hj.trans hi.symm)
  cases hv : c.Validate table with
  | some msg => exact ⟨msg, rfl⟩
  | none =>
    exfalso
    have hall := (eventFiltering_validate_eq_none_iff table c).1 hv
    rcases h with h | h
    · exact dup _ h hall.2.2.2.1
    · exact dup _ h hall.2.2.2.2.2.1

/-- Witness of C4: the rule id list `["a", "b", "a"]` repeats `"a"` at the
positions 0 and 2. -/
theorem validate_rejects_repeated_elements_witness :
    ∃ msg, EventFilteringConfiguration.Validate asciiOnlyTable
      ⟨none, ["a", "b", "a"], []⟩ = some msg :=
  validate_rejects_repeated_elements asciiOnlyTable ⟨none, ["a", "b", "a"], []⟩
    (Or.inl ⟨0, 2, by decide, "a", rfl, rfl⟩)

/-! ### C5: unsupported event types -/

/-- C5: a configuration holding an event type that is not supported is rejected
by `Validate`; and when every earlier check passes the error message is exactly
`<t> is not a supported EventType` for the first unsupported `t` in list
order. -/
theorem validate_rejects_unsupported_event_type (table : Char → Char)
    (c : EventFilteringConfiguration) (t : AlertEventType)
    (hmem : t ∈ c.EventTypes) (hns : IsSupportedAlertEventType table t = false) :
    (∃ msg, c.Validate table = some msg) ∧
    ((∀ q, c.Query = some q → len q ≤ 2048) →
      ((c.RuleIDs = [] ∧ c.EventTypes ≠ []) ∨ (c.RuleIDs ≠ [] ∧ c.EventTypes = [])) →
      c.RuleIDs.length ≤ 1024 → c.RuleIDs.Nodup →
      c.EventTypes.length ≤ 8 → c.EventTypes.Nodup →
      ∃ t₀, c.EventTypes.find? (fun u => !IsSupportedAlertEventType table u) = some t₀ ∧
        c.Validate table = some (t₀ ++ " is not a supported EventType")) := by
  constructor
  · cases hv : c.Validate table with
    | some msg => exact ⟨msg, rfl⟩
    | none =>
      exfalso
      have hall := (eventFiltering_validate_eq_none_iff table c).1 hv
      have := hall.2.2.2.2.2.2 t hmem
      simp [hns] at this
  · intro hq hex hrl hrn hel hen
    have hfind : (c.EventTypes.find? (fun u => !IsSupportedAlertEventType table u)).isSome := by
      rw [List.find?_isSome]
      exact ⟨t, hmem, by simp [hns]⟩
    obtain ⟨t₀, ht₀⟩ := Option.isSome_iff_exists.1 hfind
    refine ⟨t₀, ht₀, ?_⟩
    obtain ⟨q, rs, es⟩ := c
    have hlen : SupportedAlertEventTypes.length = 8 := rfl
    have hr := (stringSliceElementsAreUnique_iff_nodup rs).2 hrn
    have he := (stringSliceElementsAreUnique_iff_nodup es).2 hen
    have hv := validateEventTypes_eq_find table es
    simp only [] at hq hex hrl hel ht₀ hmem
    have hes : es ≠ [] := List.ne_nil_of_mem hmem
    have hrs : rs = [] := by
      rcases hex with h | h
      · exact h.1
      · exact absurd h.2 hes
    subst hrs
    have hpos : 0 < es.length := List.length_pos.2 hes
    cases q with
    | none =>
      simp only [EventFilteringConfiguration.Validate, hlen, eventTypeSliceToStringSlice_eq,
        hr, he, hv, ht₀]
      simp [unsupportedMessage, hes, Nat.not_lt.2 hel]
    | some q =>
      have hq' : ¬ (len q > 2048) := Nat.not_lt.2 (hq q rfl)
      simp only [EventFilteringConfiguration.Validate, hlen, eventTypeSliceToStringSlice_eq,
        hr, he, hv, ht₀]
      simp [unsupportedMessage, hes, Nat.not_lt.2 hel, hq']

/-- Witness of C5: in `["incident", "foo", "bar"]` the entry `"bar"` is not
supported, and the message names `"foo"`, the first unsupported entry. -/
theorem validate_rejects_unsupported_event_type_witness :
    (∃ msg, EventFilteringConfiguration.Validate asciiOnlyTable
      ⟨none, [], ["incident", "foo", "bar"]⟩ = some msg) ∧
    ∃ t₀, (["incident", "foo", "bar"] : List AlertEventType).find?
        (fun u => !IsSupportedAlertEventType asciiOnlyTable u) = some t₀ ∧
      EventFilteringConfiguration.Validate asciiOnlyTable
        ⟨none, [], ["incident", "foo", "bar"]⟩ = some (t₀ ++ " is not a supported EventType") :=
  have h := validate_rejects_unsupported_event_type asciiOnlyTable
    ⟨none, [], ["incident", "foo", "bar"]⟩ "bar" (by decide) (by decide)
  ⟨h.1, h.2 (by intro q hq; cases hq) (Or.inl ⟨rfl, by decide⟩) (by decide) (by decide)
    (by decide) (by decide)⟩

/-! ### C2: Upsert validates before any transport call -/

/-- C2: for every data object whose `Validate()` returns an error, `Upsert`
returns that validation error and issues no call to the transport client (no
Put is issued). -/
theorem upsert_invalid_object_no_transport_call {T : Type} (res : RestResource T) (obj : T)
    (msg : String) (h : res.object.Validate obj = some msg) :
    (res.Upsert obj).1 = .error (.ValidationError msg) ∧ (res.Upsert obj).2 = [] := by
  simp [RestResource.Upsert, h]

/-- Witness of C2: the rule binding without ID of the test
`TestFailedUpsertOfRuleBindingBecauseOfInvalidRuleBinding`. -/
theorem upsert_invalid_object_no_transport_call_witness :
    ((testRuleBindingResource testRuleBindingJSON).Upsert ruleBindingWithoutID).1 =
        .error (.ValidationError "ID is missing") ∧
      ((testRuleBindingResource testRuleBindingJSON).Upsert ruleBindingWithoutID).2 = [] :=
  upsert_invalid_object_no_transport_call (testRuleBindingResource testRuleBindingJSON)
    ruleBindingWithoutID "ID is missing" (by decide)

/-! ### C6: payload shape -/

/-- C6: `GetOne` returns a deserialization error whenever the transport payload
is a JSON array or is not JSON at all, and `GetAll` returns a deserialization
error whenever the transport payload is a single JSON object or is not JSON at
all; neither turns such a payload into a result. -/
theorem get_rejects_payload_of_wrong_shape {T : Type} (res : RestResource T)
    (id data : String) :
    (res.client.GetOne id res.resourcePath = .ok data →
      (res.parseJSON data = none ∨ ∃ elems, res.parseJSON data = some (.arr elems)) →
      ∃ msg, (res.GetOne id).1 = .error (.DeserializationError msg)) ∧
    (res.client.GetAll res.resourcePath = .ok data →
      (res.parseJSON data = none ∨ ∃ members, res.parseJSON data = some (.obj members)) →
      ∃ msg, res.GetAll.1 = .error (.DeserializationError msg)) := by
  constructor
  · intro hc hp
    rcases hp with hp | ⟨elems, hp⟩
    · exact ⟨"payload is not JSON", by
        simp [RestResource.GetOne, hc, RestResource.unmarshalOne, hp]⟩
    · exact ⟨"payload is not a single JSON object", by
        simp [RestResource.GetOne, hc, RestResource.unmarshalOne, hp,
          RestResource.unmarshalValue]⟩
  · intro hc hp
    rcases hp with hp | ⟨members, hp⟩
    · exact ⟨"payload is not JSON", by
        simp [RestResource.GetAll, hc, RestResource.unmarshalArray, hp]⟩
    · exact ⟨"payload is not a JSON array", by
        simp [RestResource.GetAll, hc, RestResource.unmarshalArray, hp]⟩

/-- Witness of C6: the payloads of the tests, a JSON array for `GetOne` and a
JSON object for `GetAll`. -/
theorem get_rejects_payload_of_wrong_shape_witness :
    (∃ msg, ((testRuleBindingResource invalidArrayJSON).GetOne
      "test-rule-binding-id").1 = .error (.DeserializationError msg)) ∧
    (∃ msg, (testRuleBindingResource invalidObjectJSON).GetAll.1 =
      .error (.DeserializationError msg)) :=
  ⟨(get_rejects_payload_of_wrong_shape (testRuleBindingResource invalidArrayJSON)
      "test-rule-binding-id" invalidArrayJSON).1 rfl
      (Or.inr ⟨[.obj [("invalid", .str "data")]], by rfl⟩),
   (get_rejects_payload_of_wrong_shape (testRuleBindingResource invalidObjectJSON)
      "test-rule-binding-id" invalidObjectJSON).2 rfl
      (Or.inr ⟨[("invalid", .str "data")], by rfl⟩)⟩

/-! ### C7: validation of rule bindings -/

/-- C7: `RuleBinding.Validate` returns an error if ID, Text or Description is
blank or RuleIds is empty; when one of them is the only violation the message
contains the name of that field (`ID`, `Text`, `Description`, `RuleIds`); and
it returns nil when ID, Text and Description are non-blank and RuleIds is
non-empty. -/
theorem ruleBinding_validate_spec (IsBlank : String → Bool) (r : RuleBinding) :
    ((IsBlank r.ID = true ∨ IsBlank r.Text = true ∨ IsBlank r.Description = true ∨
        r.RuleIds = []) → ∃ msg, r.Validate IsBlank = some msg) ∧
    ((IsBlank r.ID = true ∧ IsBlank r.Text = false ∧ IsBlank r.Description = false ∧
        r.RuleIds ≠ []) → ∃ msg, r.Validate IsBlank = some msg ∧ Contains msg "ID") ∧
    ((IsBlank r.ID = false ∧ IsBlank r.Text = true ∧ IsBlank r.Description = false ∧
        r.RuleIds ≠ []) → ∃ msg, r.Validate IsBlank = some msg ∧ Contains msg "Text") ∧
    ((IsBlank r.ID = false ∧ IsBlank r.Text = false ∧ IsBlank r.Description = true ∧
        r.RuleIds ≠ []) →
      ∃ msg, r.Validate IsBlank = some msg ∧ Contains msg "Description") ∧
    ((IsBlank r.ID = false ∧ IsBlank r.Text = false ∧ IsBlank r.Description = false ∧
        r.RuleIds = []) → ∃ msg, r.Validate IsBlank = some msg ∧ Contains msg "RuleIds") ∧
    ((IsBlank r.ID = false ∧ IsBlank r.Text = false ∧ IsBlank r.Description = false ∧
        r.RuleIds ≠ []) → r.Validate IsBlank = none) := by
  refine ⟨?_, ?_, ?_, ?_, ?_, ?_⟩
  · intro h
    unfold RuleBinding.Validate
    split_ifs with h1 h2 h3 h4
    · exact ⟨_, rfl⟩
    · exact ⟨_, rfl⟩
    · exact ⟨_, rfl⟩
    · exact ⟨_, rfl⟩
    · exfalso
      rcases h with h | h | h | h
      · exact h1 h
      · exact h2 h
      · exact h3 h
      · exact h4 (by simp [h])
  · rintro ⟨h1, -, -, -⟩
    exact ⟨"ID is missing", by simp [RuleBinding.Validate, h1], by unfold Contains; decide⟩
  · rintro ⟨h1, h2, -, -⟩
    exact ⟨"Text is missing", by simp [RuleBinding.Validate, h1, h2],
      by unfold Contains; decide⟩
  · rintro ⟨h1, h2, h3, -⟩
    exact ⟨"Description is missing", by simp [RuleBinding.Validate, h1, h2, h3],
      by unfold Contains; decide⟩
  · rintro ⟨h1, h2, h3, h4⟩
    exact ⟨"RuleIds are missing", by simp [RuleBinding.Validate, h1, h2, h3, h4],
      by unfold Contains; decide⟩
  · rintro ⟨h1, h2, h3, h4⟩
    simp [RuleBinding.Validate, h1, h2, h3, h4]

/-- Witness of C7: the rule binding without ID of the tests is rejected with a
message containing `ID`, and the valid test rule binding is accepted. -/
theorem ruleBinding_validate_spec_witness :
    (∃ msg, ruleBindingWithoutID.Validate emptyIsBlank = some msg ∧ Contains msg "ID") ∧
    makeTestRuleBinding.Validate emptyIsBlank = none :=
  ⟨(ruleBinding_validate_spec emptyIsBlank ruleBindingWithoutID).2.1
      ⟨by decide, by decide, by decide, by decide⟩,
   (ruleBinding_validate_spec emptyIsBlank makeTestRuleBinding).2.2.2.2.2
      ⟨by decide, by decide, by decide, by decide⟩⟩

/-! ### C8: returned objects are valid -/

theorem unmarshalValue_ok_valid {T : Type} (res : RestResource T) (j : Json) (v : T)
    (h : res.unmarshalValue j = .ok v) : res.object.Validate v = none := by
  cases j with
  | obj members =>
    simp only [RestResource.unmarshalValue] at h
    cases hf : res.object.FromJSON members with
    | error e => simp [hf] at h
    | ok w =>
      cases hv : res.object.Validate w with
      | some msg => simp [hf, hv] at h
      | none =>
        simp [hf, hv] at h
        exact h ▸ hv
  | null => simp [RestResource.unmarshalValue] at h
  | bool b => simp [RestResource.unmarshalValue] at h
  | num n => simp [RestResource.unmarshalValue] at h
  | str s => simp [RestResource.unmarshalValue] at h
  | arr elems => simp [RestResource.unmarshalValue] at h

theorem unmarshalValue_invalid_object {T : Type} (res : RestResource T)
    (members : List (String × Json)) (v : T) (msg : String)
    (hf : res.object.FromJSON members = .ok v) (hv : res.object.Validate v = some msg) :
    res.unmarshalValue (.obj members) = .error (.ValidationError msg) := by
  simp [RestResource.unmarshalValue, hf, hv]

theorem unmarshalOne_ok_valid {T : Type} (res : RestResource T) (data : String) (v : T)
    (h : res.unmarshalOne data = .ok v) : res.object.Validate v = none := by
  unfold RestResource.unmarshalOne at h
  cases hp : res.parseJSON data with
  | none => simp [hp] at h
  | some j =>
    rw [hp] at h
    exact unmarshalValue_ok_valid res j v h

theorem unmarshalElems_ok {T : Type} (res : RestResource T) (js : List Json) (vs : List T)
    (h : res.unmarshalElems js = .ok vs) :
    (∀ v ∈ vs, res.object.Validate v = none) ∧
      (∀ j ∈ js, ∃ v, res.unmarshalValue j = .ok v) := by
  induction js generalizing vs with
  | nil =>
    simp only [RestResource.unmarshalElems, Except.ok.injEq] at h
    subst h
    simp
  | cons j js ih =>
    simp only [RestResource.unmarshalElems] at h
    cases hj : res.unmarshalValue j with
    | error e => simp [hj] at h
    | ok v =>
      cases hr : res.unmarshalElems js with
      | error e => simp [hj, hr] at h
      | ok ws =>
        simp only [hj, hr, Except.ok.injEq] at h
        subst h
        obtain ⟨ih1, ih2⟩ := ih ws hr
        constructor
        · intro x hx
          rcases List.mem_cons.1 hx with rfl | hx
          · exact unmarshalValue_ok_valid res j x hj
          · exact ih1 x hx
        · intro x hx
          rcases List.mem_cons.1 hx with rfl | hx
          · exact ⟨v, hj⟩
          · exact ih2 x hx

theorem getOne_ok_valid {T : Type} (res : RestResource T) (id : String) (v : T)
    (h : (res.GetOne id).1 = .ok v) : res.object.Validate v = none := by
  unfold RestResource.GetOne at h
  cases hc : res.client.GetOne id res.resourcePath with
  | error e => simp [hc] at h
  | ok data =>
    simp only [hc] at h
    exact unmarshalOne_ok_valid res data v h

theorem upsert_ok_valid {T : Type} (res : RestResource T) (obj v : T)
    (h : (res.Upsert obj).1 = .ok v) : res.object.Validate v = none := by
  unfold RestResource.Upsert at h
  cases ho : res.object.Validate obj with
  | some msg => simp [ho] at h
  | none =>
    cases hc : res.client.Put obj res.resourcePath with
    | error e => simp [ho, hc] at h
    | ok data =>
      simp only [ho, hc] at h
      exact unmarshalOne_ok_valid res data v h

theorem getAll_ok {T : Type} (res : RestResource T) (vs : List T)
    (h : res.GetAll.1 = .ok vs) :
    (∀ v ∈ vs, res.object.Validate v = none) ∧
      (∀ data elems, res.client.GetAll res.resourcePath = .ok data →
        res.parseJSON data = some (.arr elems) →
        ∀ j ∈ elems, ∃ v, res.unmarshalValue j = .ok v) := by
  unfold RestResource.GetAll at h
  cases hc : res.client.GetAll res.resourcePath with
  | error e => simp [hc] at h
  | ok data =>
    simp only [hc] at h
    unfold RestResource.unmarshalArray at h
    cases hp : res.parseJSON data with
    | none => simp [hp] at h
    | some j =>
      cases j with
      | arr elems =>
        simp only [hp] at h
        obtain ⟨h1, h2⟩ := unmarshalElems_ok res elems vs h
        refine ⟨h1, ?_⟩
        intro data' elems' hd hp'
        simp only [Except.ok.injEq] at hd
        subst hd
        rw [hp] at hp'
        simp only [Option.some.injEq, Json.arr.injEq] at hp'
        subst hp'
        exact h2
      | null => simp [hp] at h
      | bool b => simp [hp] at h
      | num n => simp [hp] at h
      | str s => simp [hp] at h
      | obj members => simp [hp] at h

/-- C8: every object that `GetOne` or `Upsert` returns without error, and every
element of a list that `GetAll` returns without error, satisfies `Validate()`;
a well-formed JSON object (or array element) that deserializes to an object
failing `Validate()` makes the operation return an error instead of the
object. -/
theorem returned_objects_satisfy_validate {T : Type} (res : RestResource T) :
    (∀ id v, (res.GetOne id).1 = .ok v → res.object.Validate v = none) ∧
    (∀ obj v, (res.Upsert obj).1 = .ok v → res.object.Validate v = none) ∧
    (∀ vs, res.GetAll.1 = .ok vs → ∀ v ∈ vs, res.object.Validate v = none) ∧
    (∀ id data members v msg, res.client.GetOne id res.resourcePath = .ok data →
      res.parseJSON data = some (.obj members) → res.object.FromJSON members = .ok v →
      res.object.Validate v = some msg → ∃ e, (res.GetOne id).1 = .error e) ∧
    (∀ obj data members v msg, res.client.Put obj res.resourcePath = .ok data →
      res.parseJSON data = some (.obj members) → res.object.FromJSON members = .ok v →
      res.object.Validate v = some msg → ∃ e, (res.Upsert obj).1 = .error e) ∧
    (∀ data elems members v msg, res.client.GetAll res.resourcePath = .ok data →
      res.parseJSON data = some (.arr elems) → Json.obj members ∈ elems →
      res.object.FromJSON members = .ok v →
      res.object.Validate v = some msg → ∃ e, res.GetAll.1 = .error e) := by
  refine ⟨getOne_ok_valid res, upsert_ok_valid res, fun vs h => (getAll_ok res vs h).1,
    ?_, ?_, ?_⟩
  · intro id data members v msg hc hp hf hv
    exact ⟨.ValidationError msg, by
      simp [RestResource.GetOne, hc, RestResource.unmarshalOne, hp,
        unmarshalValue_invalid_object res members v msg hf hv]⟩
  · intro obj data members v msg hc hp hf hv
    cases ho : res.object.Validate obj with
    | some m => exact ⟨.ValidationError m, by simp [RestResource.Upsert, ho]⟩
    | none =>
      exact ⟨.ValidationError msg, by
        simp [RestResource.Upsert, ho, hc, RestResource.unmarshalOne, hp,
          unmarshalValue_invalid_object res members v msg hf hv]⟩
  · intro data elems members v msg hc hp hmem hf hv
    cases hr : res.GetAll.1 with
    | error e => exact ⟨e, rfl⟩
    | ok vs =>
      exfalso
      obtain ⟨w, hw⟩ := (getAll_ok res vs hr).2 data elems hc hp _ hmem
      rw [unmarshalValue_invalid_object res members v msg hf hv] at hw
      cases hw

/-- Witness of C8: the serialized test rule binding is returned by `GetOne`,
`Upsert` and `GetAll` and is valid; the object payload of the failure tests
deserializes to a rule binding without ID and makes `GetOne`, `Upsert`
and `GetAll` return an error. -/
theorem returned_objects_satisfy_validate_witness :
    makeTestRuleBinding.Validate emptyIsBlank = none ∧
    makeTestRuleBinding.Validate emptyIsBlank = none ∧
    (∀ v ∈ [makeTestRuleBinding], v.Validate emptyIsBlank = none) ∧
    (∃ e, ((testRuleBindingResource invalidObjectJSON).GetOne "id-1").1 =
      .error e) ∧
    (∃ e, ((testRuleBindingResource invalidObjectJSON).Upsert
      makeTestRuleBinding).1 = .error e) ∧
    (∃ e, (testRuleBindingResource invalidArrayJSON).GetAll.1 = .error e) :=
  ⟨(returned_objects_satisfy_validate (testRuleBindingResource testRuleBindingJSON)).1
      "test-rule-binding-id-1" makeTestRuleBinding (by decide),
   (returned_objects_satisfy_validate (testRuleBindingResource testRuleBindingJSON)).2.1
      makeTestRuleBinding makeTestRuleBinding (by decide),
   (returned_objects_satisfy_validate
      (testRuleBindingResource ("[" ++ testRuleBindingJSON ++ "]"))).2.2.1
      [makeTestRuleBinding] (by decide),
   (returned_objects_satisfy_validate
      (testRuleBindingResource invalidObjectJSON)).2.2.2.1
      "id-1" invalidObjectJSON [("invalid", .str "data")]
      { ID := "", Enabled := false, Triggering := false, Severity := 0, Text := "",
        Description := "", ExpirationTime := 0, Query := "", RuleIds := [] }
      "ID is missing" rfl (by rfl) (by rfl) (by decide),
   (returned_objects_satisfy_validate
      (testRuleBindingResource invalidObjectJSON)).2.2.2.2.1
      makeTestRuleBinding invalidObjectJSON [("invalid", .str "data")]
      { ID := "", Enabled := false, Triggering := false, Severity := 0, Text := "",
        Description := "", ExpirationTime := 0, Query := "", RuleIds := [] }
      "ID is missing" rfl (by rfl) (by rfl) (by decide),
   (returned_objects_satisfy_validate
      (testRuleBindingResource invalidArrayJSON)).2.2.2.2.2
      invalidArrayJSON [.obj [("invalid", .str "data")]]
      [("invalid", .str "data")]
      { ID := "", Enabled := false, Triggering := false, Severity := 0, Text := "",
        Description := "", ExpirationTime := 0, Query := "", RuleIds := [] }
      "ID is missing" rfl (by rfl) (List.mem_singleton.2 rfl) (by rfl) (by decide)⟩

/-! ### C9: distinct messages per check -/

theorem eventFiltering_validate_eq_check (table : Char → Char)
    (c : EventFilteringConfiguration) :
    ∃ t, c.Validate table = (c.firstFailingCheck table).map (fun k => checkMessage k t) := by
  refine ⟨(c.EventTypes.find? (fun t => !IsSupportedAlertEventType table t)).getD "", ?_⟩
  have hv := validateEventTypes_eq_find table c.EventTypes
  unfold EventFilteringConfiguration.Validate EventFilteringConfiguration.firstFailingCheck
  simp only []
  split_ifs <;> try rfl
  · rename_i hany
    rw [List.any_eq_true] at hany
    have hsome := List.find?_isSome.2 hany
    obtain ⟨t₀, ht₀⟩ := Option.isSome_iff_exists.1 hsome
    simp [hv, ht₀, checkMessage]
  · rename_i hany
    have hnone : c.EventTypes.find? (fun t => !IsSupportedAlertEventType table t) = none := by
      rw [List.find?_eq_none]
      intro x hx hp
      exact hany (List.any_eq_true.2 ⟨x, hx, hp⟩)
    simp [hv, hnone]

theorem alerting_validate_eq_check (table : Char → Char) (IsBlank : String → Bool)
    (c : AlertingConfiguration) :
    ∃ t, c.Validate table IsBlank =
      (c.firstFailingCheck table IsBlank).map (fun k => checkMessage k t) := by
  obtain ⟨t, ht⟩ := eventFiltering_validate_eq_check table c.EventFilteringConfiguration
  refine ⟨t, ?_⟩
  unfold AlertingConfiguration.Validate AlertingConfiguration.firstFailingCheck
  split_ifs <;> first | rfl | exact ht

theorem data_reverse_take_append (t s : String) (n : Nat) (h : n ≤ s.data.length) :
    ((t ++ s).data.reverse).take n = (s.data.reverse).take n := by
  rw [String.data_append, List.reverse_append]
  exact List.take_append_of_le_length (by simpa using h)

theorem unsupportedMessage_ne (t : AlertEventType) (m : String)
    (h : (m.data.reverse).take 2 ≠ ['e', 'p']) : unsupportedMessage t ≠ m := by
  intro heq
  apply h
  rw [← heq]
  unfold unsupportedMessage
  rw [data_reverse_take_append t _ 2 (by decide)]
  decide

theorem checkMessage_ne (k₁ k₂ : ValidationCheck) (t₁ t₂ : AlertEventType) (h : k₁ ≠ k₂) :
    checkMessage k₁ t₁ ≠ checkMessage k₂ t₂ := by
  cases k₁ <;> cases k₂ <;>
    first
    | exact absurd rfl h
    | (simp only [checkMessage]; apply unsupportedMessage_ne; decide)
    | (simp only [checkMessage]; apply Ne.symm; apply unsupportedMessage_ne; decide)
    | (simp only [checkMessage]; decide)

/-- C9: `AlertingConfiguration.Validate`, the delegated
`EventFilteringConfiguration.Validate` included, produces a distinct error
message per violated rule: two configurations whose first failing checks are
different checks are rejected with different messages, whatever their contents
(the event type interpolated into the unsupported-event-type message
included). -/
theorem validate_messages_distinct (table : Char → Char) (IsBlank : String → Bool)
    (c₁ c₂ : AlertingConfiguration) (k₁ k₂ : ValidationCheck)
    (h₁ : c₁.firstFailingCheck table IsBlank = some k₁)
    (h₂ : c₂.firstFailingCheck table IsBlank = some k₂) (hne : k₁ ≠ k₂) :
    ∃ m₁ m₂, c₁.Validate table IsBlank = some m₁ ∧ c₂.Validate table IsBlank = some m₂ ∧
      m₁ ≠ m₂ := by
  obtain ⟨t₁, e₁⟩ := alerting_validate_eq_check table IsBlank c₁
  obtain ⟨t₂, e₂⟩ := alerting_validate_eq_check table IsBlank c₂
  rw [h₁] at e₁
  rw [h₂] at e₂
  exact ⟨checkMessage k₁ t₁, checkMessage k₂ t₂, e₁, e₂, checkMessage_ne k₁ k₂ t₁ t₂ hne⟩

/-- Witness of C9: a configuration with the unsupported event type
`ID is missing` and a configuration without ID fail different checks and get
different messages. -/
theorem validate_messages_distinct_witness :
    ∃ m₁ m₂,
      AlertingConfiguration.Validate asciiOnlyTable emptyIsBlank
        ⟨"id", "name", [], ⟨none, [], ["ID is missing"]⟩⟩ = some m₁ ∧
      AlertingConfiguration.Validate asciiOnlyTable emptyIsBlank
        ⟨"", "name", [], ⟨none, ["rule-1"], []⟩⟩ = some m₂ ∧ m₁ ≠ m₂ :=
  validate_messages_distinct asciiOnlyTable emptyIsBlank
    ⟨"id", "name", [], ⟨none, [], ["ID is missing"]⟩⟩ ⟨"", "name", [], ⟨none, ["rule-1"], []⟩⟩
    .eventTypesSupported .idPresent (by decide) (by decide) (by decide)

/-! ### C10: the bound on the length of Query -/

theorem utf8ByteSize_go_replicate (n : Nat) (ch : Char) :
    String.utf8ByteSize.go (List.replicate n ch) = n * ch.utf8Size := by
  induction n with
  | zero => simp [String.utf8ByteSize.go]
  | succ n ih =>
    rw [List.replicate_succ, String.utf8ByteSize.go, ih]
    ring

theorem length_le_utf8ByteSize_go (cs : List Char) :
    cs.length ≤ String.utf8ByteSize.go cs := by
  induction cs with
  | nil => simp [String.utf8ByteSize.go]
  | cons ch cs ih =>
    rw [String.utf8ByteSize.go, List.length_cons]
    have := Char.utf8Size_pos ch
    omega

theorem length_le_len (s : String) : s.length ≤ len s := by
  obtain ⟨cs⟩ := s
  exact length_le_utf8ByteSize_go cs

theorem len_accentedQuery : len accentedQuery = 2050 := by
  show String.utf8ByteSize.go (List.replicate 1025 'é') = 2050
  rw [utf8ByteSize_go_replicate]
  decide

theorem queryLength_check_query (table : Char → Char) (c : EventFilteringConfiguration)
    (h : c.firstFailingCheck table = some .queryLength) :
    ∃ q, c.Query = some q ∧ len q > 2048 := by
  unfold EventFilteringConfiguration.firstFailingCheck at h
  split_ifs at h with h1
  · cases hQ : c.Query with
    | none => simp [hQ] at h1
    | some q =>
      simp only [hQ, decide_eq_true_eq] at h1
      exact ⟨q, rfl, h1⟩
  all_goals cases h

theorem validate_of_query_too_long (table : Char → Char) (c : EventFilteringConfiguration)
    (q : String) (hq : c.Query = some q) (hlen : len q > 2048) :
    c.Validate table = some queryTooLongMessage := by
  unfold EventFilteringConfiguration.Validate
  simp [hq, hlen]

/-- Counterexample to C10: `accentedQuery` has 1025 characters, which is at
most 2048, and yet `Validate` returns the Query-length error, because the 1025
characters take 2050 bytes. -/
theorem query_length_counterexample :
    accentedQuery.length ≤ 2048 ∧
      EventFilteringConfiguration.Validate asciiOnlyTable ⟨some accentedQuery, ["rule-1"], []⟩ =
        some "Query of EventFilterConfig not valid; Maximum length of Query is 2048 characters" :=
  ⟨by
    show (List.replicate 1025 'é').length ≤ 2048
    rw [List.length_replicate]
    decide,
   validate_of_query_too_long asciiOnlyTable ⟨some accentedQuery, ["rule-1"], []⟩ accentedQuery
     rfl (by rw [len_accentedQuery]; decide)⟩

/-- C10, amended: the maximum length of Query is 2048 bytes of its UTF-8
encoding. When Query is absent or has at most 2048 bytes, `Validate` does not
return the Query-length error; when Query has more than 2048 bytes, and so in
particular when it has more than 2048 characters, `Validate` returns the error
`Query of EventFilterConfig not valid; Maximum length of Query is 2048
characters`. -/
theorem query_length_bound_in_bytes (table : Char → Char) (c : EventFilteringConfiguration) :
    ((∀ q, c.Query = some q → q.utf8ByteSize ≤ 2048) →
      c.Validate table ≠
        some "Query of EventFilterConfig not valid; Maximum length of Query is 2048 characters") ∧
    (∀ q, c.Query = some q → q.utf8ByteSize > 2048 →
      c.Validate table =
        some "Query of EventFilterConfig not valid; Maximum length of Query is 2048 characters") ∧
    (∀ q, c.Query = some q → q.length > 2048 →
      c.Validate table =
        some "Query of EventFilterConfig not valid; Maximum length of Query is 2048 characters") := by
  refine ⟨?_, ?_, ?_⟩
  · intro hq hv
    obtain ⟨t, ht⟩ := eventFiltering_validate_eq_check table c
    rw [hv] at ht
    cases hk : c.firstFailingCheck table with
    | none => simp [hk] at ht
    | some k =>
      simp only [hk, Option.map_some', Option.some.injEq] at ht
      have hkq : k ≠ .queryLength := by
        intro hkq
        subst hkq
        obtain ⟨q, hQ, hlen⟩ := queryLength_check_query table c hk
        exact absurd hlen (Nat.not_lt.2 (hq q hQ))
      exact checkMessage_ne .queryLength k t t (Ne.symm hkq) ht
  · intro q hq hlen
    exact validate_of_query_too_long table c q hq hlen
  · intro q hq hlen
    exact validate_of_query_too_long table c q hq
      (Nat.lt_of_lt_of_le hlen (length_le_len q))

/-- Witness of C10, amended: a query of 2048 bytes does not get the
Query-length error, `accentedQuery` with its 2050 bytes does, and so does a
query of 2049 characters. -/
theorem query_length_bound_in_bytes_witness :
    (EventFilteringConfiguration.Validate asciiOnlyTable
        ⟨some (String.mk (List.replicate 2048 'a')), ["rule-1"], []⟩ ≠
      some "Query of EventFilterConfig not valid; Maximum length of Query is 2048 characters") ∧
    (EventFilteringConfiguration.Validate asciiOnlyTable ⟨some accentedQuery, ["rule-1"], []⟩ =
      some "Query of EventFilterConfig not valid; Maximum length of Query is 2048 characters") ∧
    (EventFilteringConfiguration.Validate asciiOnlyTable
        ⟨some (String.mk (List.replicate 2049 'a')), ["rule-1"], []⟩ =
      some "Query of EventFilterConfig not valid; Maximum length of Query is 2048 characters") :=
  ⟨(query_length_bound_in_bytes asciiOnlyTable
      ⟨some (String.mk (List.replicate 2048 'a')), ["rule-1"], []⟩).1 (by
        intro q hq
        simp only [Option.some.injEq] at hq
        subst hq
        simp only [String.utf8ByteSize]
        rw [utf8ByteSize_go_replicate]
        decide),
   (query_length_bound_in_bytes asciiOnlyTable ⟨some accentedQuery, ["rule-1"], []⟩).2.1
      accentedQuery rfl (by
        have := len_accentedQuery
        unfold len at this
        rw [this]
        decide),
   (query_length_bound_in_bytes asciiOnlyTable
      ⟨some (String.mk (List.replicate 2049 'a')), ["rule-1"], []⟩).2.2
      (String.mk (List.replicate 2049 'a')) rfl (by
        show (List.replicate 2049 'a').length > 2048
        rw [List.length_replicate]
        decide)⟩

/-! ### C11: NOT over a binary expression -/

theorem mapExpressionStringToAPIModel_of_parse_ok {E M : Type}
    (parse : String → Except String E) (toAPIModel : E → Option M) (input : String)
    (expr : E) (h : parse input = .ok expr) :
    mapExpressionStringToAPIModel parse toAPIModel input = (toAPIModel expr, none) := by
  simp [mapExpressionStringToAPIModel, h]

theorem mapExpressionStringToAPIModel_of_parse_error {E M : Type}
    (parse : String → Except String E) (toAPIModel : E → Option M) (input : String)
    (err : String) (h : parse input = .error err) :
    mapExpressionStringToAPIModel parse toAPIModel input = (none, some err) := by
  simp [mapExpressionStringToAPIModel, h]

theorem mapStateToDataObject_of_parse_ok {E M : Type}
    (parse : String → Except String E) (toAPIModel : E → Option M) (d : ResourceData)
    (format : String → String) (expr : E)
    (h : parse (d.Get ApplicationConfigFieldMatchSpecification) = .ok expr) :
    mapStateToDataObjectForApplicationConfig parse toAPIModel d format =
      ({ ID := d.Id
         Label := computeFullApplicationConfigLabelString d format
         Scope := d.Get ApplicationConfigFieldScope
         BoundaryScope := d.Get ApplicationConfigFieldBoundaryScope
         MatchSpecification := toAPIModel expr }, none) := by
  simp [mapStateToDataObjectForApplicationConfig,
    mapExpressionStringToAPIModel_of_parse_ok parse toAPIModel _ expr h]

theorem mapStateToDataObject_of_parse_error {E M : Type}
    (parse : String → Except String E) (toAPIModel : E → Option M) (d : ResourceData)
    (format : String → String) (err : String)
    (h : parse (d.Get ApplicationConfigFieldMatchSpecification) = .error err) :
    mapStateToDataObjectForApplicationConfig parse toAPIModel d format =
      (ApplicationConfig.empty, some err) := by
  simp [mapStateToDataObjectForApplicationConfig,
    mapExpressionStringToAPIModel_of_parse_error parse toAPIModel _ err h]

/-- Counterexample to C11: the text `NOT (a EQUALS 1 AND b EQUALS 2)` parses to
an expression in which NOT is applied to an AND expression, and yet, whatever
the mapper returns, `mapExpressionStringToAPIModel` returns a nil error, and so
does `mapStateToDataObjectForApplicationConfig`. -/
theorem negated_binary_counterexample :
    FilterExpression.Parse negatedConjunctionText = .ok negatedConjunction ∧
    negatedConjunction.hasNotOverBinary = true ∧
    (∀ toAPIModel : Expression → Option APINode,
      (mapExpressionStringToAPIModel FilterExpression.Parse toAPIModel
        negatedConjunctionText).2 = none) ∧
    (∀ toAPIModel : Expression → Option APINode,
      (mapStateToDataObjectForApplicationConfig FilterExpression.Parse toAPIModel
        (testApplicationConfigData negatedConjunctionText) testFormat).2 = none) := by
  have hp : FilterExpression.Parse negatedConjunctionText = .ok negatedConjunction := by
    decide
  refine ⟨hp, by decide, ?_, ?_⟩
  · intro toAPIModel
    rw [mapExpressionStringToAPIModel_of_parse_ok _ _ _ _ hp]
  · intro toAPIModel
    rw [mapStateToDataObject_of_parse_ok _ _ _ _ negatedConjunction hp]

/-- C11, amended: for every match-specification text that parses to an
expression in which NOT is applied to a binary (AND/OR) expression,
`mapExpressionStringToAPIModel` returns the value of `ToAPIModel` on that
expression together with a nil error, and
`mapStateToDataObjectForApplicationConfig` returns the application config
holding that value together with a nil error. -/
theorem negated_binary_returns_mapper_value {M : Type}
    (parse : String → Except String Expression) (toAPIModel : Expression → Option M)
    (d : ResourceData) (format : String → String) (expr : Expression)
    (hparse : parse (d.Get ApplicationConfigFieldMatchSpecification) = .ok expr)
    (_hnot : expr.hasNotOverBinary = true) :
    mapExpressionStringToAPIModel parse toAPIModel
        (d.Get ApplicationConfigFieldMatchSpecification) = (toAPIModel expr, none) ∧
    mapStateToDataObjectForApplicationConfig parse toAPIModel d format =
      ({ ID := d.Id
         Label := computeFullApplicationConfigLabelString d format
         Scope := d.Get ApplicationConfigFieldScope
         BoundaryScope := d.Get ApplicationConfigFieldBoundaryScope
         MatchSpecification := toAPIModel expr }, none) :=
  ⟨mapExpressionStringToAPIModel_of_parse_ok parse toAPIModel _ expr hparse,
   mapStateToDataObject_of_parse_ok parse toAPIModel d format expr hparse⟩

/-- Witness of C11, amended: the resource data holding the text
`NOT (a EQUALS 1 AND b EQUALS 2)`, with a mapper that returns nil on it. -/
theorem negated_binary_returns_mapper_value_witness :
    mapExpressionStringToAPIModel FilterExpression.Parse
        (fun _ => (none : Option APINode)) negatedConjunctionText = (none, none) ∧
    mapStateToDataObjectForApplicationConfig FilterExpression.Parse
        (fun _ => (none : Option APINode))
        (testApplicationConfigData negatedConjunctionText) testFormat =
      ({ ID := "app-1", Label := "prefix shop suffix", Scope := "INCLUDE_NO_DOWNSTREAM",
         BoundaryScope := "DEFAULT", MatchSpecification := none }, none) :=
  negated_binary_returns_mapper_value FilterExpression.Parse (fun _ => none)
    (testApplicationConfigData negatedConjunctionText) testFormat negatedConjunction
    (by decide) (by decide)

/-! ### C12: the accepted event filtering configurations -/

/-- C12: `EventFilteringConfiguration.Validate` returns nil if and only if Query
is nil or `len(Query) <= 2048`, exactly one of RuleIDs and EventTypes is
non-empty, `len(RuleIDs) <= 1024`, RuleIDs has no repeated element,
`len(EventTypes) <= 8`, EventTypes has no repeated element, and every element
of EventTypes satisfies `IsSupportedAlertEventType`. -/
theorem eventFiltering_validate_nil_iff (table : Char → Char)
    (c : EventFilteringConfiguration) :
    c.Validate table = none ↔
      ((c.Query = none ∨ ∃ q, c.Query = some q ∧ len q ≤ 2048) ∧
       ((c.RuleIDs.length > 0 ∧ c.EventTypes.length = 0) ∨
         (c.RuleIDs.length = 0 ∧ c.EventTypes.length > 0)) ∧
       c.RuleIDs.length ≤ 1024 ∧
       (∀ i j : Nat, i < j → j < c.RuleIDs.length → c.RuleIDs[i]? ≠ c.RuleIDs[j]?) ∧
       c.EventTypes.length ≤ 8 ∧
       (∀ i j : Nat, i < j → j < c.EventTypes.length → c.EventTypes[i]? ≠ c.EventTypes[j]?) ∧
       (∀ t ∈ c.EventTypes, IsSupportedAlertEventType table t = true)) := by
  rw [eventFiltering_validate_eq_none_iff, ← List.nodup_iff_getElem?_ne_getElem?,
    ← List.nodup_iff_getElem?_ne_getElem?]
  have hq : (∀ q, c.Query = some q → len q ≤ 2048) ↔
      (c.Query = none ∨ ∃ q, c.Query = some q ∧ len q ≤ 2048) := by
    cases c.Query with
    | none => simp
    | some q => simp
  have hx : ((c.RuleIDs = [] ∧ c.EventTypes ≠ []) ∨ (c.RuleIDs ≠ [] ∧ c.EventTypes = [])) ↔
      ((c.RuleIDs.length > 0 ∧ c.EventTypes.length = 0) ∨
        (c.RuleIDs.length = 0 ∧ c.EventTypes.length > 0)) := by
    simp only [List.length_eq_zero, List.length_pos]
    tauto
  rw [hq, hx]

/-! ### C13: validation of alerting configurations -/

/-- C13: when ID is blank, `AlertingConfiguration.Validate` returns the error
`ID is missing` whatever the other fields; when ID and AlertName are non-blank,
`len(AlertName) <= 256`, `len(IntegrationIDs) <= 1024` and IntegrationIDs has no
repeated element, it returns exactly the result of
`EventFilteringConfiguration.Validate`; otherwise it returns an error that does
not depend on the event filtering configuration. -/
theorem alerting_validate_spec (table : Char → Char) (IsBlank : String → Bool)
    (c : AlertingConfiguration) :
    (IsBlank c.ID = true → c.Validate table IsBlank = some "ID is missing") ∧
    (IsBlank c.ID = false → IsBlank c.AlertName = false → len c.AlertName ≤ 256 →
      c.IntegrationIDs.length ≤ 1024 → c.IntegrationIDs.Nodup →
      c.Validate table IsBlank = c.EventFilteringConfiguration.Validate table) ∧
    (¬ (IsBlank c.ID = false ∧ IsBlank c.AlertName = false ∧ len c.AlertName ≤ 256 ∧
        c.IntegrationIDs.length ≤ 1024 ∧ c.IntegrationIDs.Nodup) →
      (∃ msg, c.Validate table IsBlank = some msg) ∧
      ∀ e : EventFilteringConfiguration,
        AlertingConfiguration.Validate table IsBlank
          { c with EventFilteringConfiguration := e } = c.Validate table IsBlank) := by
  have hu := stringSliceElementsAreUnique_iff_nodup c.IntegrationIDs
  refine ⟨?_, ?_, ?_⟩
  · intro h
    simp [AlertingConfiguration.Validate, h, idMissingMessage]
  · intro h1 h2 h3 h4 h5
    have h3' : ¬ (len c.AlertName > 256) := Nat.not_lt.2 h3
    have h4' : ¬ (c.IntegrationIDs.length > 1024) := Nat.not_lt.2 h4
    simp [AlertingConfiguration.Validate, h1, h2, h3', h4', hu.2 h5]
  · intro h
    unfold AlertingConfiguration.Validate
    simp only []
    split_ifs with h1 h2 h3 h4 h5
    · exact ⟨⟨_, rfl⟩, fun _ => rfl⟩
    · exact ⟨⟨_, rfl⟩, fun _ => rfl⟩
    · exact ⟨⟨_, rfl⟩, fun _ => rfl⟩
    · exact ⟨⟨_, rfl⟩, fun _ => rfl⟩
    · exact ⟨⟨_, rfl⟩, fun _ => rfl⟩
    · exfalso
      apply h
      refine ⟨by simpa using h1, by simpa using h2, Nat.not_lt.1 h3, Nat.not_lt.1 h4, ?_⟩
      apply hu.1
      simpa using h5

/-- Witness of C13: a configuration without ID, a configuration whose own
fields are in order, and one whose AlertName is blank. -/
theorem alerting_validate_spec_witness :
    AlertingConfiguration.Validate asciiOnlyTable emptyIsBlank
        ⟨"", "name", ["a", "a"], ⟨none, [], []⟩⟩ = some "ID is missing" ∧
    AlertingConfiguration.Validate asciiOnlyTable emptyIsBlank
        ⟨"id", "name", ["a", "b"], ⟨none, [], ["foo"]⟩⟩ =
      EventFilteringConfiguration.Validate asciiOnlyTable ⟨none, [], ["foo"]⟩ ∧
    ((∃ msg, AlertingConfiguration.Validate asciiOnlyTable emptyIsBlank
        ⟨"id", "", [], ⟨none, ["rule-1"], []⟩⟩ = some msg) ∧
      ∀ e : EventFilteringConfiguration,
        AlertingConfiguration.Validate asciiOnlyTable emptyIsBlank ⟨"id", "", [], e⟩ =
          AlertingConfiguration.Validate asciiOnlyTable emptyIsBlank
            ⟨"id", "", [], ⟨none, ["rule-1"], []⟩⟩) :=
  ⟨(alerting_validate_spec asciiOnlyTable emptyIsBlank
      ⟨"", "name", ["a", "a"], ⟨none, [], []⟩⟩).1 (by decide),
   (alerting_validate_spec asciiOnlyTable emptyIsBlank
      ⟨"id", "name", ["a", "b"], ⟨none, [], ["foo"]⟩⟩).2.1
      (by decide) (by decide) (by decide) (by decide) (by decide),
   (alerting_validate_spec asciiOnlyTable emptyIsBlank
      ⟨"id", "", [], ⟨none, ["rule-1"], []⟩⟩).2.2 (by decide)⟩

/-! ### C14: uniqueness of event types under `Equals` -/

/-- C14, the code at the failing input: the event types `incident` and
`INCIDENT` are equal under `AlertEventType.Equals` and stand at different
positions, and `Validate` accepts the configuration holding both, because the
uniqueness check compares the strings as they are. -/
theorem validate_accepts_case_variant_duplicates :
    EventFilteringConfiguration.Validate asciiOnlyTable
        ⟨none, [], ["incident", "INCIDENT"]⟩ = none ∧
    AlertEventType.Equals asciiOnlyTable "incident" "INCIDENT" = true ∧
    StringSliceElementsAreUnique
      (eventTypeSliceToStringSlice ["incident", "INCIDENT"]) = true := by
  decide

/-! ### C15: the full name is formatted once -/

/-- C15: `computeFullAlertingConfigAlertNameString` and
`computeFullApplicationConfigLabelString` return the formatted alert_name /
label when that field has changed, and otherwise the stored full_alert_name /
full_label verbatim, without applying the formatter. -/
theorem computeFull_name_spec (d : ResourceData) (format : String → String) :
    (d.HasChange "alert_name" = true →
      computeFullAlertingConfigAlertNameString d format = format (d.Get "alert_name")) ∧
    (d.HasChange "alert_name" = false →
      computeFullAlertingConfigAlertNameString d format = d.Get "full_alert_name") ∧
    (d.HasChange "label" = true →
      computeFullApplicationConfigLabelString d format = format (d.Get "label")) ∧
    (d.HasChange "label" = false →
      computeFullApplicationConfigLabelString d format = d.Get "full_label") := by
  refine ⟨?_, ?_, ?_, ?_⟩ <;> intro h
  · simp [computeFullAlertingConfigAlertNameString, AlertingConfigFieldAlertName, h]
  · simp [computeFullAlertingConfigAlertNameString, AlertingConfigFieldAlertName,
      AlertingConfigFieldFullAlertName, h]
  · simp [computeFullApplicationConfigLabelString, ApplicationConfigFieldLabel, h]
  · simp [computeFullApplicationConfigLabelString, ApplicationConfigFieldLabel,
      ApplicationConfigFieldFullLabel, h]

/-- Witness of C15: the test resource data has a changed label and no changed
alert_name; the label is formatted, the stored full_alert_name is returned as
it is. -/
theorem computeFull_name_spec_witness :
    computeFullApplicationConfigLabelString (testApplicationConfigData "x") testFormat =
        testFormat "shop" ∧
    computeFullAlertingConfigAlertNameString (testApplicationConfigData "x") testFormat =
        (testApplicationConfigData "x").Get "full_alert_name" ∧
    computeFullApplicationConfigLabelString
        { testApplicationConfigData "x" with changed := fun _ => false } testFormat =
      "prefix shop suffix" ∧
    computeFullAlertingConfigAlertNameString
        { testApplicationConfigData "x" with changed := fun _ => true } testFormat =
      testFormat "" :=
  ⟨(computeFull_name_spec (testApplicationConfigData "x") testFormat).2.2.1 (by decide),
   (computeFull_name_spec (testApplicationConfigData "x") testFormat).2.1 (by decide),
   (computeFull_name_spec { testApplicationConfigData "x" with changed := fun _ => false }
      testFormat).2.2.2 rfl,
   (computeFull_name_spec { testApplicationConfigData "x" with changed := fun _ => true }
      testFormat).1 rfl⟩

/-! ### C16: errors of the mapping from the state -/

/-- C16: `mapExpressionStringToAPIModel` returns an error exactly when
`parser.Parse` returns an error, in which case the returned model is nil and
the error is the error of the parser; otherwise it returns `ToAPIModel` of the
parsed expression with a nil error. `mapStateToDataObjectForApplicationConfig`
returns the empty `ApplicationConfig{}` together with that error when parsing
the match specification fails. -/
theorem mapExpressionStringToAPIModel_spec {E M : Type}
    (parse : String → Except String E) (toAPIModel : E → Option M) (input : String)
    (d : ResourceData) (format : String → String) :
    ((∃ err, (mapExpressionStringToAPIModel parse toAPIModel input).2 = some err) ↔
      ∃ err, parse input = .error err) ∧
    (∀ err, parse input = .error err →
      mapExpressionStringToAPIModel parse toAPIModel input = (none, some err)) ∧
    (∀ expr, parse input = .ok expr →
      mapExpressionStringToAPIModel parse toAPIModel input = (toAPIModel expr, none)) ∧
    (∀ err, parse (d.Get "match_specification") = .error err →
      mapStateToDataObjectForApplicationConfig parse toAPIModel d format =
        (ApplicationConfig.empty, some err)) := by
  refine ⟨?_, mapExpressionStringToAPIModel_of_parse_error parse toAPIModel input,
    mapExpressionStringToAPIModel_of_parse_ok parse toAPIModel input,
    mapStateToDataObject_of_parse_error parse toAPIModel d format⟩
  cases h : parse input with
  | error e =>
    rw [mapExpressionStringToAPIModel_of_parse_error parse toAPIModel input e h]
    simp
  | ok expr =>
    rw [mapExpressionStringToAPIModel_of_parse_ok parse toAPIModel input expr h]
    simp

/-- Witness of C16: the text `a EQUALS` lacks its value and is rejected by the
parser, the text `a EQUALS 1` is parsed. -/
theorem mapExpressionStringToAPIModel_spec_witness :
    mapExpressionStringToAPIModel FilterExpression.Parse
        (fun _ => (none : Option APINode)) "a EQUALS" =
      (none, some "missing value: unexpected end of input at position 2") ∧
    mapExpressionStringToAPIModel FilterExpression.Parse
        (fun e => some (APINode.TagMatcherExpression none (FilterExpression.Render e) "" none))
        "a EQUALS 1" =
      (some (APINode.TagMatcherExpression none "a EQUALS 1" "" none), none) ∧
    mapStateToDataObjectForApplicationConfig FilterExpression.Parse
        (fun _ => (none : Option APINode)) (testApplicationConfigData "a EQUALS") testFormat =
      (ApplicationConfig.empty, some "missing value: unexpected end of input at position 2") :=
  ⟨(mapExpressionStringToAPIModel_spec FilterExpression.Parse (fun _ => none) "a EQUALS"
      (testApplicationConfigData "a EQUALS") testFormat).2.1 _ (by decide),
   (mapExpressionStringToAPIModel_spec FilterExpression.Parse
      (fun e => some (APINode.TagMatcherExpression none (FilterExpression.Render e) "" none))
      "a EQUALS 1" (testApplicationConfigData "a EQUALS") testFormat).2.2.1
      (.Comparison none "a" .EQUALS (some "1")) (by decide),
   (mapExpressionStringToAPIModel_spec FilterExpression.Parse (fun _ => none) "a EQUALS"
      (testApplicationConfigData "a EQUALS") testFormat).2.2.2 _ (by decide)⟩

/-! ### C17: the state is left unchanged on a mapping failure -/

/-- C17: if `FromAPIModel` fails on the match specification of the object,
`updateStateForApplicationConfig` returns that error and leaves the resource
data unchanged; if it succeeds, match_specification is set to `Render()` of the
mapped expression and the ID to the ID of the object (and full_label, scope and
boundary_scope to the fields of the object). -/
theorem updateStateForApplicationConfig_spec {E M : Type}
    (fromAPIModel : M → Except String E) (render : E → String) (d : ResourceData)
    (obj : ApplicationConfig M) (m : M) (hm : obj.MatchSpecification = some m) :
    (∀ err, fromAPIModel m = .error err →
      updateStateForApplicationConfig fromAPIModel render d obj = some (d, some err)) ∧
    (∀ expr, fromAPIModel m = .ok expr →
      ∃ d', updateStateForApplicationConfig fromAPIModel render d obj = some (d', none) ∧
        d'.Get "match_specification" = render expr ∧
        d'.Id = obj.ID ∧
        d'.Get "full_label" = obj.Label ∧
        d'.Get "scope" = obj.Scope ∧
        d'.Get "boundary_scope" = obj.BoundaryScope) := by
  constructor
  · intro err he
    simp [updateStateForApplicationConfig, hm, mapAPIModelToNormalizedStringRepresentation, he]
  · intro expr he
    refine ⟨((((d.Set ApplicationConfigFieldFullLabel obj.Label).Set
        ApplicationConfigFieldScope obj.Scope).Set
        ApplicationConfigFieldBoundaryScope obj.BoundaryScope).Set
        ApplicationConfigFieldMatchSpecification (render expr)).SetId obj.ID, by
      simp only [updateStateForApplicationConfig, hm,
        mapAPIModelToNormalizedStringRepresentation, he], ?_, ?_, ?_, ?_, ?_⟩ <;>
    simp [ResourceData.Get, ResourceData.Set, ResourceData.SetId, ResourceData.Id,
      ApplicationConfigFieldFullLabel, ApplicationConfigFieldScope,
      ApplicationConfigFieldBoundaryScope, ApplicationConfigFieldMatchSpecification]

/-- Witness of C17: the match specification of `unmappableApplicationConfig`
holds the operator `MATCHES`, which the mapper rejects; the one of
`testApplicationConfig` is mapped and rendered. -/
theorem updateStateForApplicationConfig_spec_witness :
    updateStateForApplicationConfig FilterExpression.FromAPIModel FilterExpression.Render
        (testApplicationConfigData "x") unmappableApplicationConfig =
      some (testApplicationConfigData "x", some "unsupported operator MATCHES") ∧
    ∃ d', updateStateForApplicationConfig FilterExpression.FromAPIModel FilterExpression.Render
        (testApplicationConfigData "x") testApplicationConfig = some (d', none) ∧
      d'.Get "match_specification" = "entity.type EQUALS jvm AND status NOT_EMPTY" ∧
      d'.Id = "app-1" ∧
      d'.Get "full_label" = "prefix shop suffix" ∧
      d'.Get "scope" = "INCLUDE_NO_DOWNSTREAM" ∧
      d'.Get "boundary_scope" = "DEFAULT" :=
  ⟨(updateStateForApplicationConfig_spec FilterExpression.FromAPIModel FilterExpression.Render
      (testApplicationConfigData "x") unmappableApplicationConfig
      (.TagMatcherExpression none "entity.type" "MATCHES" (some "j")) rfl).1 _ (by decide),
   (updateStateForApplicationConfig_spec FilterExpression.FromAPIModel FilterExpression.Render
      (testApplicationConfigData "x") testApplicationConfig
      (.LogicalAnd (.TagMatcherExpression none "entity.type" "EQUALS" (some "jvm"))
        (.TagMatcherExpression none "status" "NOT_EMPTY" none)) rfl).2
      (.BinaryOp .AND (.Comparison none "entity.type" .EQUALS (some "jvm"))
        (.Comparison none "status" .NOT_EMPTY none)) (by decide)⟩

/-! ### C18: the upgrade of the state of schema version 0 -/

/-- C18: `applicationConfigStateUpgradeV0` returns a nil error and, for every
raw state map, a map in which full_label holds the value the map had under
label and every key other than full_label holds the same value as before; no
key is removed. -/
theorem applicationConfigStateUpgradeV0_spec (m : RawState) :
    (applicationConfigStateUpgradeV0 m).2 = none ∧
    (applicationConfigStateUpgradeV0 m).1.index "full_label" = m.index "label" ∧
    (∀ v, m "label" = some v → (applicationConfigStateUpgradeV0 m).1 "full_label" = some v) ∧
    (∀ k, k ≠ "full_label" → (applicationConfigStateUpgradeV0 m).1 k = m k) ∧
    (∀ k, (m k).isSome = true → ((applicationConfigStateUpgradeV0 m).1 k).isSome = true) := by
  refine ⟨rfl, ?_, ?_, ?_, ?_⟩
  · simp [applicationConfigStateUpgradeV0, RawState.assign, RawState.index,
      ApplicationConfigFieldFullLabel, ApplicationConfigFieldLabel]
  · intro v hv
    simp [applicationConfigStateUpgradeV0, RawState.assign, RawState.index,
      ApplicationConfigFieldFullLabel, ApplicationConfigFieldLabel, hv]
  · intro k hk
    simp [applicationConfigStateUpgradeV0, RawState.assign, ApplicationConfigFieldFullLabel, hk]
  · intro k hk
    by_cases h : k = "full_label"
    · simp [applicationConfigStateUpgradeV0, RawState.assign, ApplicationConfigFieldFullLabel, h]
    · simpa [applicationConfigStateUpgradeV0, RawState.assign, ApplicationConfigFieldFullLabel,
        h] using hk

/-- Witness of C18: the raw state with the label `shop` and a scope. -/
theorem applicationConfigStateUpgradeV0_spec_witness :
    (applicationConfigStateUpgradeV0 testRawState).1 "full_label" = some (.str "shop") ∧
    (applicationConfigStateUpgradeV0 testRawState).1 "scope" = testRawState "scope" ∧
    ((applicationConfigStateUpgradeV0 testRawState).1 "label").isSome = true :=
  ⟨(applicationConfigStateUpgradeV0_spec testRawState).2.2.1 (.str "shop") rfl,
   (applicationConfigStateUpgradeV0_spec testRawState).2.2.2.1 "scope" (by decide),
   (applicationConfigStateUpgradeV0_spec testRawState).2.2.2.2 "label" rfl⟩

end Instana
